import Mathlib

/-!
Verification development for Amarillo's Outfit Manager
(src/amarillo_outfit_manager.py), a Blender addon managing outfits,
their bound collections and shape-key overrides.

The embedding below translates the addon's data model and operator
`execute` methods into pure Lean functions over an explicit scene state.
Host (Blender) conventions that the source relies on:

* `bpy_prop_collection` indexing follows Python list indexing, including
  negative indices; an unresolvable index raises `IndexError`.  Fallible
  operator runs are modelled as `Option (Scene × OpResult)`, where `none`
  means an uncaught exception escaped `execute`.
* The view layer's `LayerCollection` tree mirrors the scene's collection
  containment tree node for node, and collection identity is unique per
  view layer (spec §9 records this host invariant).  Both trees are
  therefore modelled by the single tree `CTree`, whose nodes carry the
  collection identity and the per-view-layer `exclude` flag.
* `FloatProperty(min=0.0, max=1.0)` clamps every write into `[0, 1]`.
* Shape-key weights are copied, never computed with, so they are
  modelled by `ℚ`.
-/

/-- Identity of a Blender `Object` (host object pointer). -/
abbrev ObjId := Nat

/-- Identity of a Blender `Collection` (host collection pointer). -/
abbrev CollId := Nat

/-- One entry of `object.data.shape_keys.key_blocks`: a named shape key
with its live weight. -/
structure KeyBlock where
  name : String
  value : ℚ
deriving DecidableEq, Inhabited, Repr

/-- The shape-key-relevant part of a Blender `Object`:
`data.shape_keys` (none when the mesh has no shape keys) and
`active_shape_key_index`. -/
structure Obj where
  shape_keys : Option (List KeyBlock)
  active_shape_key_index : Nat
deriving DecidableEq, Inhabited, Repr

/-- `ShapeKeyEntry` property group: shape-key name, stored override
value (a `FloatProperty` clamped to `[0,1]` on write), and the pointer
to the model the key belongs to. -/
structure ShapeKeyEntry where
  name : String
  value : ℚ
  model : Option ObjId
deriving DecidableEq, Inhabited, Repr

/-- `NestedCollectionState` property group: a recorded sub-collection
pointer together with its recorded `exclude` flag. -/
structure NestedCollectionState where
  collection : Option CollId
  was_excluded : Bool
deriving DecidableEq, Inhabited, Repr

/-- `OutfitEntry` property group: display name, optional bound
collection, the override list with its active index, and the nested
visibility snapshot. -/
structure OutfitEntry where
  name : String
  collection : Option CollId
  shape_keys : List ShapeKeyEntry
  active_shape_key_index : Int
  nested_states : List NestedCollectionState
deriving DecidableEq, Inhabited, Repr

/-- `ManagedModelEntry` property group: the managed object pointer. -/
structure ManagedModelEntry where
  object : Option ObjId
deriving DecidableEq, Inhabited, Repr

/-- Result value of an operator's `execute`. -/
inductive OpResult where
  | FINISHED
  | CANCELLED
deriving DecidableEq, Inhabited, Repr

/-- The view-layer `LayerCollection` tree: collection identity, the
per-view-layer `exclude` flag, and child layer collections.  Because the
layer tree mirrors the scene's collection containment tree and
collection identity is unique per view layer, the same tree also serves
as the collection containment tree that `get_all_nested_collections`
traverses. -/
inductive CTree where
  | node (cid : CollId) (exclude : Bool) (children : List CTree)
deriving Inhabited, Repr

/-- Collection identity of a tree node. -/
def CTree.rootId : CTree → CollId
  | .node i _ _ => i

/-- Exclude flag of a tree node. -/
def CTree.rootExcl : CTree → Bool
  | .node _ e _ => e

mutual

/-- Whether the layer tree contains a node for collection `c`
(i.e. whether `find_layer_collection` succeeds). -/
def memC (c : CollId) : CTree → Bool
  | .node i _ cs => i == c || memCL c cs

/-- List version of `memC`. -/
def memCL (c : CollId) : List CTree → Bool
  | [] => false
  | t :: ts => memC c t || memCL c ts

end

mutual

/-- `find_layer_collection` followed by reading `.exclude`: depth-first
preorder search for the first node of collection `c`, returning its
exclude flag, `none` when the search fails. -/
def getExcl (c : CollId) : CTree → Option Bool
  | .node i e cs => if i == c then some e else getExclL c cs

/-- List version of `getExcl`. -/
def getExclL (c : CollId) : List CTree → Option Bool
  | [] => none
  | t :: ts =>
    match getExcl c t with
    | some b => some b
    | none => getExclL c ts

end

mutual

/-- `find_layer_collection` followed by writing `.exclude = b`: sets the
flag of the first depth-first preorder node of collection `c`; the tree
is unchanged when the search fails (the source's `if layer_coll:`
guard). -/
def setExcl (c : CollId) (b : Bool) : CTree → CTree
  | .node i e cs => if i == c then .node i b cs else .node i e (setExclL c b cs)

/-- List version of `setExcl`: updates inside the first child subtree
containing `c`. -/
def setExclL (c : CollId) (b : Bool) : List CTree → List CTree
  | [] => []
  | t :: ts => if memC c t then setExcl c b t :: ts else t :: setExclL c b ts

end

mutual

/-- Depth-first preorder search for the subtree rooted at collection
`c`. -/
def subtreeOf (c : CollId) : CTree → Option CTree
  | .node i e cs => if i == c then some (.node i e cs) else subtreeOfL c cs

/-- List version of `subtreeOf`. -/
def subtreeOfL (c : CollId) : List CTree → Option CTree
  | [] => none
  | t :: ts =>
    match subtreeOf c t with
    | some st => some st
    | none => subtreeOfL c ts

end

mutual

/-- `get_all_nested_collections` on a subtree: every strict descendant
collection, in depth-first preorder (each child followed by its own
descendants). -/
def descOf : CTree → List CollId
  | .node _ _ cs => descL cs

/-- List version of `descOf`: each root followed by its descendants. -/
def descL : List CTree → List CollId
  | [] => []
  | t :: ts => (t.rootId :: descOf t) ++ descL ts

end

/-- All collection identities of a tree: the root followed by its
descendants. -/
def allIds (t : CTree) : List CollId := t.rootId :: descOf t

/-- `get_all_nested_collections(collection)`: descendants of the node of
collection `c`, empty when `c` has no node in the tree. -/
def nestedCollections (t : CTree) (c : CollId) : List CollId :=
  match subtreeOf c t with
  | some st => descOf st
  | none => []

/-- Python list indexing (`seq[i]`) including negative indices: the
resolved non-negative position, `none` on `IndexError`. -/
def pyIdx (n : Nat) (i : Int) : Option Nat :=
  if 0 ≤ i then (if i < (n : Int) then some i.toNat else none)
  else (if 0 ≤ (n : Int) + i then some ((n : Int) + i).toNat else none)

/-- The scene state the addon registers and mutates:
`scene.amarillo_outfits`, `scene.amarillo_active_outfit_index`,
`scene.amarillo_managed_models`, `scene.amarillo_active_model_index`,
the objects' shape-key data, and the view-layer tree. -/
structure Scene where
  amarillo_outfits : List OutfitEntry
  amarillo_active_outfit_index : Int
  amarillo_managed_models : List ManagedModelEntry
  amarillo_active_model_index : Int
  objs : ObjId → Obj
  layer_tree : CTree

/-- `FloatProperty(min=0.0, max=1.0)` write clamp:
`min(1.0, max(0.0, v))`. -/
def clampQ (v : ℚ) : ℚ := if v ≤ 0 then 0 else if 1 ≤ v then 1 else v

/-- `key_blocks.get(name)` followed by `key_block.value = v`: updates
the first key block named `name`, no-op when absent (the source's
`if key_block:` guard). -/
def setKB (name : String) (v : ℚ) : List KeyBlock → List KeyBlock
  | [] => []
  | kb :: rest =>
    if kb.name == name then { kb with value := v } :: rest
    else kb :: setKB name v rest

/-- Live weight of the shape key `kname` of object `m`: `none` when the
object has no shape-key data or no key of that name. -/
def readWeight (objs : ObjId → Obj) (m : ObjId) (kname : String) : Option ℚ :=
  match (objs m).shape_keys with
  | none => none
  | some kbs => ((kbs.find? (fun kb => kb.name == kname)).map KeyBlock.value)

/-- One iteration of the shape-key loops of
`reset_outfit_shape_keys` / the apply passes: when the entry's model
pointer and the model's shape-key data resolve, write `v` into the key
block named after the entry (silently skipping an absent key). -/
def applyEntryValue (v : ℚ) (objs : ObjId → Obj) (sk : ShapeKeyEntry) : ObjId → Obj :=
  match sk.model with
  | none => objs
  | some m =>
    match (objs m).shape_keys with
    | none => objs
    | some kbs =>
      fun i => if i = m then { objs m with shape_keys := some (setKB sk.name v kbs) } else objs i

/-- `reset_outfit_shape_keys`: write weight `0.0` for every override of
the outfit, skipping unresolvable entries. -/
def reset_outfit_shape_keys (objs : ObjId → Obj) (o : OutfitEntry) : ObjId → Obj :=
  o.shape_keys.foldl (fun os sk => applyEntryValue 0 os sk) objs

/-- The apply loop of the activation transitions: write each override's
stored value into the corresponding live key block, skipping
unresolvable entries. -/
def apply_outfit_shape_keys (objs : ObjId → Obj) (o : OutfitEntry) : ObjId → Obj :=
  o.shape_keys.foldl (fun os sk => applyEntryValue sk.value os sk) objs

/-- The recording loop of `store_nested_states`: for each nested
collection, record its exclude flag when its layer node resolves. -/
def storeLoop (t : CTree) : List CollId → List NestedCollectionState
  | [] => []
  | c :: cs =>
    match getExcl c t with
    | some e => ⟨some c, e⟩ :: storeLoop t cs
    | none => storeLoop t cs

/-- `store_nested_states`: when the outfit has a bound collection, clear
its snapshot and rebuild it from the current exclude flags of all nested
collections; otherwise return unchanged. -/
def store_nested_states (t : CTree) (o : OutfitEntry) : OutfitEntry :=
  match o.collection with
  | none => o
  | some c => { o with nested_states := storeLoop t (nestedCollections t c) }

/-- The writing loop of `restore_nested_states`: apply each recorded
entry in order, skipping entries whose collection pointer or layer node
does not resolve. -/
def restoreLoop (states : List NestedCollectionState) (t : CTree) : CTree :=
  match states with
  | [] => t
  | st :: rest =>
    match st.collection with
    | some c => restoreLoop rest (setExcl c st.was_excluded t)
    | none => restoreLoop rest t

/-- `restore_nested_states`: when the outfit has a bound collection,
write every recorded snapshot entry back; otherwise return unchanged. -/
def restore_nested_states (o : OutfitEntry) (t : CTree) : CTree :=
  match o.collection with
  | none => t
  | some _ => restoreLoop o.nested_states t

/-- The hide-all pass of the activation transitions: for every outfit
with a bound collection, set its layer node's exclude flag to `true`. -/
def hideAll (outfits : List OutfitEntry) (t : CTree) : CTree :=
  outfits.foldl
    (fun tr o =>
      match o.collection with
      | some c => setExcl c true tr
      | none => tr) t

/-- Step 1 of an activation transition: when a current outfit resolved
(position `j?`), store its nested states and reset its shape keys. -/
def activate_step1 (s : Scene) (j? : Option Nat) : Scene :=
  match j? with
  | none => s
  | some j =>
    let o := s.amarillo_outfits.getD j default
    let o' := store_nested_states s.layer_tree o
    { s with
      amarillo_outfits := s.amarillo_outfits.set j o'
      objs := reset_outfit_shape_keys s.objs o' }

/-- Step 2 of an activation transition: disable all outfit
collections. -/
def activate_hide_all (s : Scene) : Scene :=
  { s with layer_tree := hideAll s.amarillo_outfits s.layer_tree }

/-- Step 3 of an activation transition: when the target outfit's bound
collection resolves to a layer node, clear its exclude flag and then
restore the target's nested states. -/
def activate_show_target (s : Scene) (tIdx : Nat) : Scene :=
  let t := s.amarillo_outfits.getD tIdx default
  match t.collection with
  | none => s
  | some c =>
    if memC c s.layer_tree then
      { s with layer_tree := restore_nested_states t (setExcl c false s.layer_tree) }
    else s

/-- Step 4 of an activation transition: apply the target outfit's stored
shape-key values. -/
def activate_apply_keys (s : Scene) (tIdx : Nat) : Scene :=
  let t := s.amarillo_outfits.getD tIdx default
  { s with objs := apply_outfit_shape_keys s.objs t }

/-- The current-outfit resolution of
`AMARILLO_OT_quick_activate_outfit.execute`:
`outfits[current_index] if current_index < len(outfits) else None`.
The conditional expression guards only the upper bound, so a
too-negative scene index still raises (outer `none`); inner value is the
resolved position of the current outfit, `none` when there is no current
outfit. -/
def resolveCurrent (s : Scene) : Option (Option Nat) :=
  if s.amarillo_active_outfit_index < (s.amarillo_outfits.length : Int) then
    match pyIdx s.amarillo_outfits.length s.amarillo_active_outfit_index with
    | some j => some (some j)
    | none => none
  else some none

/-- The shared activation pipeline of both activation operators:
store/reset the current outfit (when one resolved), hide all outfit
collections, show the target and restore its snapshot, apply the
target's stored values. -/
def activation_pipeline (s : Scene) (j? : Option Nat) (tIdx : Nat) : Scene :=
  activate_apply_keys (activate_show_target (activate_hide_all (activate_step1 s j?)) tIdx) tIdx

/-- `AMARILLO_OT_quick_activate_outfit.execute`: bail out with
`CANCELLED` when `outfit_index >= len(outfits)`; resolve the current
outfit and the target outfit (negative `outfit_index` indexes from the
end, raising when out of range); run the activation pipeline and write
`outfit_index` into the scene's active index. -/
def quick_activate_execute (s : Scene) (outfit_index : Int) : Option (Scene × OpResult) :=
  if (s.amarillo_outfits.length : Int) ≤ outfit_index then some (s, OpResult.CANCELLED)
  else
    match resolveCurrent s with
    | none => none
    | some j? =>
      match pyIdx s.amarillo_outfits.length outfit_index with
      | none => none
      | some tIdx =>
        some ({ activation_pipeline s j? tIdx with
                  amarillo_active_outfit_index := outfit_index }, OpResult.FINISHED)

/-- `AMARILLO_OT_activate_outfit.execute`: read
`outfits[active_outfit_index]` (raising when the scene index is out of
bounds, including on an empty outfit list), then run the same
store/reset, hide-all, show-and-restore, apply pipeline on the selected
outfit; the scene's active index is not written. -/
def activate_outfit_execute (s : Scene) : Option (Scene × OpResult) :=
  match pyIdx s.amarillo_outfits.length s.amarillo_active_outfit_index with
  | none => none
  | some j =>
    some (activation_pipeline s (some j) j, OpResult.FINISHED)

/-- `AMARILLO_OT_remove_outfit.execute`: read the selected outfit
(raising when the scene index is out of bounds), clear its override
list, then decrement-and-clamp the scene's active index and remove the
outfit sitting at the already-decremented index. -/
def remove_outfit_execute (s : Scene) : Option (Scene × OpResult) :=
  match pyIdx s.amarillo_outfits.length s.amarillo_active_outfit_index with
  | none => none
  | some j =>
    let o := s.amarillo_outfits.getD j default
    let outfits1 := s.amarillo_outfits.set j { o with shape_keys := [] }
    let newIdx := max 0 (s.amarillo_active_outfit_index - 1)
    some ({ s with
              amarillo_outfits := outfits1.eraseIdx newIdx.toNat
              amarillo_active_outfit_index := newIdx }, OpResult.FINISHED)

/-- `enumerate` comprehension of `AMARILLO_OT_remove_managed_model`:
positions of the entries whose model pointer equals `target`. -/
def matchIdxs (p : ShapeKeyEntry → Bool) : List ShapeKeyEntry → List Nat
  | [] => []
  | sk :: rest => (if p sk then [0] else []) ++ (matchIdxs p rest).map (· + 1)

/-- One removal iteration of the cascade: remove the override at
position `i`, then clamp the outfit's active override index when it fell
out of bounds. -/
def removeStep (o : OutfitEntry) (i : Nat) : OutfitEntry :=
  let sks := o.shape_keys.eraseIdx i
  let a :=
    if (sks.length : Int) ≤ o.active_shape_key_index then max 0 ((sks.length : Int) - 1)
    else o.active_shape_key_index
  { o with shape_keys := sks, active_shape_key_index := a }

/-- The per-outfit cascade of `AMARILLO_OT_remove_managed_model`: remove
the matching override positions from highest to lowest, clamping the
active index after each removal. -/
def cascadeRemove (target : Option ObjId) (o : OutfitEntry) : OutfitEntry :=
  ((matchIdxs (fun sk => sk.model == target) o.shape_keys).reverse).foldl removeStep o

/-- `AMARILLO_OT_remove_managed_model.execute`: with a valid model
index, cascade-remove every override referencing the model from every
outfit, remove the model, and decrement-and-clamp the model index;
otherwise `CANCELLED`. -/
def remove_managed_model_execute (s : Scene) : Scene × OpResult :=
  let models := s.amarillo_managed_models
  let ai := s.amarillo_active_model_index
  if 0 ≤ ai ∧ ai < (models.length : Int) then
    let m := models.getD ai.toNat default
    ({ s with
        amarillo_outfits := s.amarillo_outfits.map (cascadeRemove m.object)
        amarillo_managed_models := models.eraseIdx ai.toNat
        amarillo_active_model_index := max 0 (ai - 1) }, OpResult.FINISHED)
  else (s, OpResult.CANCELLED)

/-- `object.active_shape_key`: the key block at the object's active
shape-key index, `none` without shape-key data. -/
def active_shape_key (o : Obj) : Option KeyBlock :=
  match o.shape_keys with
  | none => none
  | some kbs => kbs.get? o.active_shape_key_index

/-- `AMARILLO_OT_add_shape_key.execute`: read the selected outfit
(raising when the scene index is out of bounds); when the model index is
non-negative, read `models[index]` (raising when it is not below the
list length — the source checks only `>= 0`); reject with `CANCELLED`
when the model pointer or its shape-key data is missing, or the active
key is missing or named `Basis`; otherwise append a new override
capturing the active key's name and current value (clamped by the
`FloatProperty` range). -/
def add_shape_key_execute (s : Scene) : Option (Scene × OpResult) :=
  match pyIdx s.amarillo_outfits.length s.amarillo_active_outfit_index with
  | none => none
  | some j =>
    if 0 ≤ s.amarillo_active_model_index then
      match pyIdx s.amarillo_managed_models.length s.amarillo_active_model_index with
      | none => none
      | some mi =>
        let model := s.amarillo_managed_models.getD mi default
        match model.object with
        | none => some (s, OpResult.CANCELLED)
        | some oid =>
          match (s.objs oid).shape_keys with
          | none => some (s, OpResult.CANCELLED)
          | some _ =>
            match active_shape_key (s.objs oid) with
            | none => some (s, OpResult.CANCELLED)
            | some ak =>
              if ak.name ≠ "Basis" then
                let o := s.amarillo_outfits.getD j default
                let entry : ShapeKeyEntry :=
                  { name := ak.name, value := clampQ ak.value, model := some oid }
                some ({ s with
                          amarillo_outfits :=
                            s.amarillo_outfits.set j
                              { o with shape_keys := o.shape_keys ++ [entry] } },
                      OpResult.FINISHED)
              else some (s, OpResult.CANCELLED)
    else some (s, OpResult.CANCELLED)

/-! ### Layer-tree lemmas -/

mutual

/-- A collection resolves to a flag exactly when its node is in the
tree. -/
theorem getExcl_isSome_eq_memC (c : CollId) : ∀ t, (getExcl c t).isSome = memC c t
  | .node i e cs => by
    by_cases h : i == c
    · simp [getExcl, memC, h]
    · simp [getExcl, memC, h, getExclL_isSome_eq_memCL c cs]

/-- List version of `getExcl_isSome_eq_memC`. -/
theorem getExclL_isSome_eq_memCL (c : CollId) : ∀ ts, (getExclL c ts).isSome = memCL c ts
  | [] => by simp [getExclL, memCL]
  | t :: ts => by
    cases h : getExcl c t with
    | some b =>
      have := getExcl_isSome_eq_memC c t
      rw [h] at this
      simp [getExclL, memCL, h, ← this]
    | none =>
      have := getExcl_isSome_eq_memC c t
      rw [h] at this
      simp [getExclL, memCL, h, ← this, getExclL_isSome_eq_memCL c ts]

end

mutual

/-- Writing the flag a collection already has leaves the tree
unchanged. -/
theorem setExcl_of_getExcl_eq (c : CollId) (b : Bool) :
    ∀ t, getExcl c t = some b → setExcl c b t = t
  | .node i e cs, h => by
    by_cases hi : i == c
    · simp [getExcl, hi] at h
      simp [setExcl, hi, h]
    · simp [getExcl, hi] at h
      simp [setExcl, hi, setExclL_of_getExclL_eq c b cs h]

/-- List version of `setExcl_of_getExcl_eq`. -/
theorem setExclL_of_getExclL_eq (c : CollId) (b : Bool) :
    ∀ ts, getExclL c ts = some b → setExclL c b ts = ts
  | t :: ts, h => by
    cases hg : getExcl c t with
    | some b' =>
      have hmem : memC c t = true := by
        have := getExcl_isSome_eq_memC c t
        rw [hg] at this; simp at this; exact this
      rw [getExclL, hg] at h
      cases h
      simp [setExclL, hmem, setExcl_of_getExcl_eq c b t hg]
    | none =>
      have hmem : memC c t = false := by
        have := getExcl_isSome_eq_memC c t
        rw [hg] at this; simp at this; exact this
      rw [getExclL, hg] at h
      simp [setExclL, hmem, setExclL_of_getExclL_eq c b ts h]

end

mutual

/-- Reading back a flag just written. -/
theorem getExcl_setExcl_same (c : CollId) (b : Bool) :
    ∀ t, memC c t = true → getExcl c (setExcl c b t) = some b
  | .node i e cs, h => by
    by_cases hi : i == c
    · simp [setExcl, hi, getExcl]
    · rw [memC] at h
      simp [hi] at h
      simp [setExcl, hi, getExcl, getExclL_setExclL_same c b cs h]

/-- List version of `getExcl_setExcl_same`. -/
theorem getExclL_setExclL_same (c : CollId) (b : Bool) :
    ∀ ts, memCL c ts = true → getExclL c (setExclL c b ts) = some b
  | t :: ts, h => by
    by_cases hm : memC c t
    · have : (getExcl c (setExcl c b t)) = some b := getExcl_setExcl_same c b t hm
      simp [setExclL, hm, getExclL, this]
    · rw [memCL] at h
      simp [hm] at h
      have hg : getExcl c t = none := by
        cases hgc : getExcl c t with
        | none => rfl
        | some b' =>
          have := getExcl_isSome_eq_memC c t
          rw [hgc] at this
          simp only [Option.isSome_some] at this
          exact absurd this.symm hm
      simp [setExclL, hm, getExclL, hg, getExclL_setExclL_same c b ts h]

end

mutual

/-- Writing one collection's flag does not change another's. -/
theorem getExcl_setExcl_ne (c c' : CollId) (b : Bool) (hne : c' ≠ c) :
    ∀ t, getExcl c' (setExcl c b t) = getExcl c' t
  | .node i e cs => by
    by_cases hi : i == c
    · have hic : i = c := by simpa using hi
      have hi' : (i == c') = false := by
        simp only [hic, beq_eq_false_iff_ne]
        exact fun h => hne h.symm
      simp [setExcl, hi, getExcl, hi']
    · by_cases hi' : i == c'
      · simp [setExcl, hi, getExcl, hi']
      · simp [setExcl, hi, getExcl, hi', getExclL_setExclL_ne c c' b hne cs]

/-- List version of `getExcl_setExcl_ne`. -/
theorem getExclL_setExclL_ne (c c' : CollId) (b : Bool) (hne : c' ≠ c) :
    ∀ ts, getExclL c' (setExclL c b ts) = getExclL c' ts
  | [] => by simp [setExclL, getExclL]
  | t :: ts => by
    by_cases hm : memC c t
    · have h1 : getExcl c' (setExcl c b t) = getExcl c' t := getExcl_setExcl_ne c c' b hne t
      simp only [setExclL, hm, if_true, getExclL, h1]
    · simp only [setExclL, hm, if_false, Bool.false_eq_true, getExclL,
        getExclL_setExclL_ne c c' b hne ts]

end

mutual

/-- `setExcl` preserves which collections are in the tree. -/
theorem memC_setExcl (x c : CollId) (b : Bool) :
    ∀ t, memC x (setExcl c b t) = memC x t
  | .node i e cs => by
    by_cases hi : i == c
    · simp [setExcl, hi, memC]
    · simp [setExcl, hi, memC, memCL_setExclL x c b cs]

/-- List version of `memC_setExcl`. -/
theorem memCL_setExclL (x c : CollId) (b : Bool) :
    ∀ ts, memCL x (setExclL c b ts) = memCL x ts
  | [] => by simp [setExclL]
  | t :: ts => by
    by_cases hm : memC c t
    · simp only [setExclL, hm, if_true, memCL, memC_setExcl x c b t]
    · simp only [setExclL, hm, if_false, Bool.false_eq_true, memCL,
        memCL_setExclL x c b ts]

end

mutual

/-- Writing an absent collection leaves the tree unchanged. -/
theorem setExcl_not_mem (c : CollId) (b : Bool) :
    ∀ t, memC c t = false → setExcl c b t = t
  | .node i e cs, h => by
    rw [memC] at h
    simp only [Bool.or_eq_false_iff] at h
    simp [setExcl, h.1, setExclL_not_mem c b cs h.2]

/-- List version of `setExcl_not_mem`. -/
theorem setExclL_not_mem (c : CollId) (b : Bool) :
    ∀ ts, memCL c ts = false → setExclL c b ts = ts
  | [], _ => rfl
  | t :: ts, h => by
    rw [memCL] at h
    simp only [Bool.or_eq_false_iff] at h
    simp [setExclL, h.1, setExclL_not_mem c b ts h.2]

end

/-- `setExcl` preserves the root identity. -/
theorem rootId_setExcl (c : CollId) (b : Bool) (t : CTree) :
    (setExcl c b t).rootId = t.rootId := by
  cases t with
  | node i e cs =>
    rw [setExcl]
    split <;> rfl

mutual

/-- `setExcl` preserves the descendant identity listing. -/
theorem descOf_setExcl (c : CollId) (b : Bool) :
    ∀ t, descOf (setExcl c b t) = descOf t
  | .node i e cs => by
    by_cases hi : i == c
    · simp [setExcl, hi, descOf]
    · simp [setExcl, hi, descOf, descL_setExclL c b cs]

/-- List version of `descOf_setExcl`. -/
theorem descL_setExclL (c : CollId) (b : Bool) :
    ∀ ts, descL (setExclL c b ts) = descL ts
  | [] => rfl
  | t :: ts => by
    by_cases hm : memC c t
    · simp only [setExclL, hm, if_true, descL, rootId_setExcl, descOf_setExcl c b t]
    · simp only [setExclL, hm, if_false, Bool.false_eq_true, descL,
        descL_setExclL c b ts]

end

mutual

/-- `setExcl` preserves which subtree a collection roots, up to flags:
the descendant listing of the located subtree is unchanged. -/
theorem subtreeOf_setExcl_descOf (x c : CollId) (b : Bool) :
    ∀ t, (subtreeOf x (setExcl c b t)).map descOf = (subtreeOf x t).map descOf
  | .node i e cs => by
    by_cases hi : i == c
    · by_cases hx : i == x
      · simp [setExcl, hi, subtreeOf, hx, descOf]
      · simp [setExcl, hi, subtreeOf, hx]
    · by_cases hx : i == x
      · simp [setExcl, hi, subtreeOf, hx, descOf, descL_setExclL c b cs]
      · simp [setExcl, hi, subtreeOf, hx, subtreeOfL_setExclL_descOf x c b cs]

/-- List version of `subtreeOf_setExcl_descOf`. -/
theorem subtreeOfL_setExclL_descOf (x c : CollId) (b : Bool) :
    ∀ ts, (subtreeOfL x (setExclL c b ts)).map descOf = (subtreeOfL x ts).map descOf
  | [] => rfl
  | t :: ts => by
    by_cases hm : memC c t
    · have h1 := subtreeOf_setExcl_descOf x c b t
      simp only [setExclL, hm, if_true, subtreeOfL]
      cases h2 : subtreeOf x t with
      | some st =>
        rw [h2] at h1
        cases h3 : subtreeOf x (setExcl c b t) with
        | some st' => rw [h3] at h1; simpa using h1
        | none => rw [h3] at h1; simp at h1
      | none =>
        rw [h2] at h1
        cases h3 : subtreeOf x (setExcl c b t) with
        | some st' => rw [h3] at h1; simp at h1
        | none => simp [h3]
    · simp only [setExclL, hm, if_false, Bool.false_eq_true, subtreeOfL]
      cases h2 : subtreeOf x t with
      | some st => simp [h2]
      | none => simpa using subtreeOfL_setExclL_descOf x c b ts

end

/-- `setExcl` preserves the nested-collection listing of every
collection. -/
theorem nestedCollections_setExcl (c : CollId) (b : Bool) (t : CTree) (x : CollId) :
    nestedCollections (setExcl c b t) x = nestedCollections t x := by
  have h := subtreeOf_setExcl_descOf x c b t
  rw [nestedCollections, nestedCollections]
  cases h2 : subtreeOf x t with
  | some st =>
    rw [h2] at h
    cases h3 : subtreeOf x (setExcl c b t) with
    | some st' => rw [h3] at h; simpa using h
    | none => rw [h3] at h; simp at h
  | none =>
    rw [h2] at h
    cases h3 : subtreeOf x (setExcl c b t) with
    | some st' => rw [h3] at h; simp at h
    | none => simp

mutual

/-- Tree membership is membership of the identity listing. -/
theorem memC_eq_mem_allIds (x : CollId) :
    ∀ t, memC x t = true ↔ x ∈ allIds t
  | .node i e cs => by
    rw [memC, allIds]
    simp only [Bool.or_eq_true, beq_iff_eq]
    constructor
    · rintro (h | h)
      · exact h ▸ List.mem_cons_self _ _
      · exact List.mem_cons_of_mem _ ((memCL_eq_mem_descL x cs).mp h)
    · intro h
      rcases List.mem_cons.mp h with h | h
      · exact Or.inl h.symm
      · exact Or.inr ((memCL_eq_mem_descL x cs).mpr h)

/-- List version of `memC_eq_mem_allIds`. -/
theorem memCL_eq_mem_descL (x : CollId) :
    ∀ ts, memCL x ts = true ↔ x ∈ descL ts
  | [] => by simp [memCL, descL]
  | t :: ts => by
    rw [memCL, descL]
    simp only [Bool.or_eq_true, List.mem_append]
    constructor
    · rintro (h | h)
      · exact Or.inl ((memC_eq_mem_allIds x t).mp h)
      · exact Or.inr ((memCL_eq_mem_descL x ts).mp h)
    · rintro (h | h)
      · exact Or.inl ((memC_eq_mem_allIds x t).mpr h)
      · exact Or.inr ((memCL_eq_mem_descL x ts).mpr h)

end

mutual

/-- A located subtree's identity listing is a sublist of the whole
tree's. -/
theorem allIds_subtreeOf_sublist (c : CollId) :
    ∀ t st, subtreeOf c t = some st → (allIds st).Sublist (allIds t)
  | .node i e cs, st, h => by
    by_cases hi : i == c
    · rw [subtreeOf, if_pos hi] at h
      cases h
      exact List.Sublist.refl _
    · rw [subtreeOf, if_neg hi] at h
      have h1 := allIds_subtreeOfL_sublist c cs st h
      exact h1.trans (List.sublist_cons_self _ _)

/-- List version of `allIds_subtreeOf_sublist`. -/
theorem allIds_subtreeOfL_sublist (c : CollId) :
    ∀ ts st, subtreeOfL c ts = some st → (allIds st).Sublist (descL ts)
  | t :: ts, st, h => by
    rw [subtreeOfL] at h
    cases h2 : subtreeOf c t with
    | some st' =>
      rw [h2] at h
      cases h
      have h1 := allIds_subtreeOf_sublist c t _ h2
      rw [descL]
      exact h1.trans (List.sublist_append_left _ _)
    | none =>
      rw [h2] at h
      have h1 := allIds_subtreeOfL_sublist c ts st h
      rw [descL]
      exact h1.trans (List.sublist_append_right _ _)

end

mutual

/-- The root identity of a located subtree is the searched
collection. -/
theorem rootId_subtreeOf (c : CollId) :
    ∀ t st, subtreeOf c t = some st → st.rootId = c
  | .node i e cs, st, h => by
    by_cases hi : i == c
    · rw [subtreeOf, if_pos hi] at h
      cases h
      simpa [CTree.rootId] using hi
    · rw [subtreeOf, if_neg hi] at h
      exact rootId_subtreeOfL c cs st h

/-- List version of `rootId_subtreeOf`. -/
theorem rootId_subtreeOfL (c : CollId) :
    ∀ ts st, subtreeOfL c ts = some st → st.rootId = c
  | t :: ts, st, h => by
    rw [subtreeOfL] at h
    cases h3 : subtreeOf c t with
    | some st' => rw [h3] at h; cases h; exact rootId_subtreeOf c t st h3
    | none => rw [h3] at h; exact rootId_subtreeOfL c ts st h

end

/-- Membership transfers from a located subtree to the whole tree. -/
theorem memC_of_memC_subtreeOf (c x : CollId) (t st : CTree)
    (h : subtreeOf c t = some st) (hx : memC x st = true) : memC x t = true := by
  rw [memC_eq_mem_allIds] at hx ⊢
  exact (allIds_subtreeOf_sublist c t st h).subset hx

/-- A descendant of a located subtree is in the whole tree. -/
theorem memC_of_mem_desc_subtreeOf (c d : CollId) (t st : CTree)
    (h : subtreeOf c t = some st) (hd : d ∈ descOf st) : memC d t = true := by
  apply memC_of_memC_subtreeOf c d t st h
  rw [memC_eq_mem_allIds]
  exact List.mem_cons_of_mem _ hd

mutual

/-- A located subtree exists for every tree member. -/
theorem subtreeOf_isSome_of_memC (c : CollId) :
    ∀ t, memC c t = true → (subtreeOf c t).isSome = true
  | .node i e cs, h => by
    by_cases hi : i == c
    · simp [subtreeOf, hi]
    · rw [memC] at h
      simp only [hi, Bool.false_or] at h
      simp only [subtreeOf, hi, if_false, Bool.false_eq_true]
      exact subtreeOfL_isSome_of_memCL c cs h

/-- List version of `subtreeOf_isSome_of_memC`. -/
theorem subtreeOfL_isSome_of_memCL (c : CollId) :
    ∀ ts, memCL c ts = true → (subtreeOfL c ts).isSome = true
  | t :: ts, h => by
    rw [memCL] at h
    rw [subtreeOfL]
    cases h3 : subtreeOf c t with
    | some st => simp
    | none =>
      simp only [Bool.or_eq_true] at h
      rcases h with h | h
      · have := subtreeOf_isSome_of_memC c t h
        rw [h3] at this
        simp at this
      · exact subtreeOfL_isSome_of_memCL c ts h

end

/-! ### Hide-all, restore and store loop characterizations -/

/-- Unfolding: empty hide-all pass. -/
theorem hideAll_nil (t : CTree) : hideAll [] t = t := rfl

/-- Unfolding: one hide-all iteration on an outfit with a bound
collection. -/
theorem hideAll_cons_some (o : OutfitEntry) (os : List OutfitEntry) (t : CTree)
    (c : CollId) (h : o.collection = some c) :
    hideAll (o :: os) t = hideAll os (setExcl c true t) := by
  simp [hideAll, h]

/-- Unfolding: one hide-all iteration on an unbound outfit. -/
theorem hideAll_cons_none (o : OutfitEntry) (os : List OutfitEntry) (t : CTree)
    (h : o.collection = none) :
    hideAll (o :: os) t = hideAll os t := by
  simp [hideAll, h]

/-- Pointwise effect of the hide-all pass: a collection bound by some
outfit and present in the tree reads `true`; every other collection's
flag is unchanged. -/
theorem getExcl_hideAll (O : List OutfitEntry) (t : CTree) (x : CollId) :
    getExcl x (hideAll O t) =
      if (O.any fun o => o.collection == some x) && memC x t then some true
      else getExcl x t := by
  induction O generalizing t with
  | nil => simp [hideAll_nil]
  | cons o os ih =>
    cases hc : o.collection with
    | none => rw [hideAll_cons_none o os t hc]; simp [ih, hc]
    | some c =>
      rw [hideAll_cons_some o os t c hc]
      by_cases hcx : c = x
      · subst hcx
        by_cases hm : memC c t = true
        · rw [ih]
          simp [memC_setExcl, hm, getExcl_setExcl_same c true t hm, hc]
        · rw [setExcl_not_mem c true t (by simpa using hm), ih]
          simp [hc, hm]
      · rw [ih]
        have hxc : x ≠ c := fun h => hcx h.symm
        simp [memC_setExcl, getExcl_setExcl_ne c x true hxc, hc,
          (by simp [hcx] : (some c == some x) = false)]

/-- The hide-all pass preserves tree membership. -/
theorem memC_hideAll (O : List OutfitEntry) (t : CTree) (x : CollId) :
    memC x (hideAll O t) = memC x t := by
  induction O generalizing t with
  | nil => simp [hideAll_nil]
  | cons o os ih =>
    cases hc : o.collection with
    | none => rw [hideAll_cons_none o os t hc, ih]
    | some c => rw [hideAll_cons_some o os t c hc, ih, memC_setExcl]

/-- The hide-all pass preserves the nested-collection listings. -/
theorem nestedCollections_hideAll (O : List OutfitEntry) (t : CTree) (x : CollId) :
    nestedCollections (hideAll O t) x = nestedCollections t x := by
  induction O generalizing t with
  | nil => simp [hideAll_nil]
  | cons o os ih =>
    cases hc : o.collection with
    | none => rw [hideAll_cons_none o os t hc, ih]
    | some c => rw [hideAll_cons_some o os t c hc, ih, nestedCollections_setExcl]

/-- Unfolding: empty restore loop. -/
theorem restoreLoop_nil (t : CTree) : restoreLoop [] t = t := rfl

/-- Unfolding: one restore iteration on a resolvable entry. -/
theorem restoreLoop_cons_some (st : NestedCollectionState)
    (rest : List NestedCollectionState) (t : CTree) (c : CollId)
    (h : st.collection = some c) :
    restoreLoop (st :: rest) t = restoreLoop rest (setExcl c st.was_excluded t) := by
  simp [restoreLoop, h]

/-- Unfolding: one restore iteration on an entry without a collection
pointer. -/
theorem restoreLoop_cons_none (st : NestedCollectionState)
    (rest : List NestedCollectionState) (t : CTree) (h : st.collection = none) :
    restoreLoop (st :: rest) t = restoreLoop rest t := by
  simp [restoreLoop, h]

/-- The restore loop does not touch collections it does not record. -/
theorem getExcl_restoreLoop_not_mem (states : List NestedCollectionState) (t : CTree)
    (d : CollId) (h : d ∉ states.filterMap NestedCollectionState.collection) :
    getExcl d (restoreLoop states t) = getExcl d t := by
  induction states generalizing t with
  | nil => simp [restoreLoop_nil]
  | cons st rest ih =>
    cases hc : st.collection with
    | none =>
      rw [List.filterMap_cons, hc] at h
      rw [restoreLoop_cons_none st rest t hc]
      exact ih t h
    | some c =>
      rw [List.filterMap_cons, hc] at h
      simp only [List.mem_cons, not_or] at h
      rw [restoreLoop_cons_some st rest t c hc, ih _ h.2]
      exact getExcl_setExcl_ne c d st.was_excluded h.1 t

/-- The restore loop preserves tree membership. -/
theorem memC_restoreLoop (states : List NestedCollectionState) (t : CTree) (x : CollId) :
    memC x (restoreLoop states t) = memC x t := by
  induction states generalizing t with
  | nil => simp [restoreLoop_nil]
  | cons st rest ih =>
    cases hc : st.collection with
    | none => rw [restoreLoop_cons_none st rest t hc, ih]
    | some c => rw [restoreLoop_cons_some st rest t c hc, ih, memC_setExcl]

/-- The restore loop preserves the nested-collection listings. -/
theorem nestedCollections_restoreLoop (states : List NestedCollectionState) (t : CTree)
    (x : CollId) :
    nestedCollections (restoreLoop states t) x = nestedCollections t x := by
  induction states generalizing t with
  | nil => simp [restoreLoop_nil]
  | cons st rest ih =>
    cases hc : st.collection with
    | none => rw [restoreLoop_cons_none st rest t hc, ih]
    | some c => rw [restoreLoop_cons_some st rest t c hc, ih, nestedCollections_setExcl]

/-- When every entry recorded for a collection carries the same flag and
at least one such entry exists, the restore loop leaves that flag. -/
theorem getExcl_restoreLoop_all_same (d : CollId) (b : Bool)
    (states : List NestedCollectionState) (t : CTree)
    (hall : ∀ st ∈ states, st.collection = some d → st.was_excluded = b)
    (hex : ∃ st ∈ states, st.collection = some d)
    (hmem : memC d t = true) :
    getExcl d (restoreLoop states t) = some b := by
  induction states generalizing t with
  | nil => simp at hex
  | cons st rest ih =>
    by_cases hrest : ∃ st' ∈ rest, st'.collection = some d
    · cases hc : st.collection with
      | none =>
        rw [restoreLoop_cons_none st rest t hc]
        exact ih t (fun s hs hsc => hall s (List.mem_cons_of_mem _ hs) hsc) hrest hmem
      | some c =>
        rw [restoreLoop_cons_some st rest t c hc]
        exact ih _ (fun s hs hsc => hall s (List.mem_cons_of_mem _ hs) hsc) hrest
          (by rw [memC_setExcl]; exact hmem)
    · obtain ⟨st0, hst0mem, hst0⟩ := hex
      rcases List.mem_cons.mp hst0mem with h0 | h0
      · subst h0
        have hb : st0.was_excluded = b := hall st0 (List.mem_cons_self _ _) hst0
        rw [restoreLoop_cons_some st0 rest t d hst0]
        have hnm : d ∉ rest.filterMap NestedCollectionState.collection := by
          intro hmem'
          obtain ⟨s, hs, hsc⟩ := List.mem_filterMap.mp hmem'
          exact hrest ⟨s, hs, hsc⟩
        rw [getExcl_restoreLoop_not_mem rest _ d hnm, hb]
        exact getExcl_setExcl_same d b t hmem
      · exact absurd ⟨st0, h0, hst0⟩ hrest

/-- The restore loop leaves an entry's recorded flag on its collection
when no later entry records the same collection. -/
theorem getExcl_restoreLoop_last (d : CollId) :
    ∀ (states : List NestedCollectionState) (t : CTree) (k : Nat)
      (st : NestedCollectionState),
      states.get? k = some st → st.collection = some d →
      d ∉ (states.drop (k + 1)).filterMap NestedCollectionState.collection →
      memC d t = true →
      getExcl d (restoreLoop states t) = some st.was_excluded
  | [], _, k, st, hk, _, _, _ => by simp at hk
  | st0 :: rest, t, 0, st, hk, hc, hdrop, hmem => by
    rw [List.get?] at hk
    cases hk
    rw [List.drop_succ_cons, List.drop_zero] at hdrop
    rw [restoreLoop_cons_some st0 rest t d hc]
    rw [getExcl_restoreLoop_not_mem rest _ d hdrop]
    exact getExcl_setExcl_same d st0.was_excluded t hmem
  | st0 :: rest, t, k + 1, st, hk, hc, hdrop, hmem => by
    rw [List.get?] at hk
    rw [List.drop_succ_cons] at hdrop
    cases hc0 : st0.collection with
    | none =>
      rw [restoreLoop_cons_none st0 rest t hc0]
      exact getExcl_restoreLoop_last d rest t k st hk hc hdrop hmem
    | some c =>
      rw [restoreLoop_cons_some st0 rest t c hc0]
      exact getExcl_restoreLoop_last d rest _ k st hk hc hdrop
        (by rw [memC_setExcl]; exact hmem)

/-- The store loop records, in order, each nested collection that
resolves, together with its current flag. -/
theorem storeLoop_eq_filterMap (t : CTree) (ds : List CollId) :
    storeLoop t ds =
      ds.filterMap (fun d => (getExcl d t).map (fun e => ⟨some d, e⟩)) := by
  induction ds with
  | nil => rfl
  | cons c cs ih =>
    cases h : getExcl c t with
    | some e => simp [storeLoop, h, List.filterMap_cons, ih]
    | none => simp [storeLoop, h, List.filterMap_cons, ih]

/-- Collections recorded by the store loop come from the input
listing. -/
theorem mem_storeLoop_ids (t : CTree) (ds : List CollId) (x : CollId)
    (h : x ∈ (storeLoop t ds).filterMap NestedCollectionState.collection) : x ∈ ds := by
  induction ds with
  | nil => simp [storeLoop] at h
  | cons c cs ih =>
    rw [storeLoop] at h
    cases hg : getExcl c t with
    | some e =>
      rw [hg, List.filterMap_cons] at h
      simp only [List.mem_cons] at h ⊢
      rcases h with h | h
      · exact Or.inl (by simpa using h)
      · exact Or.inr (ih h)
    | none =>
      rw [hg] at h
      exact List.mem_cons_of_mem _ (ih h)

/-- Every store-loop entry records a listed collection with its current
flag. -/
theorem storeLoop_entry_val (t : CTree) (ds : List CollId) (d : CollId) :
    ∀ st ∈ storeLoop t ds, st.collection = some d →
      getExcl d t = some st.was_excluded := by
  induction ds with
  | nil => simp [storeLoop]
  | cons c cs ih =>
    intro st hst hc
    rw [storeLoop] at hst
    cases hg : getExcl c t with
    | some e =>
      rw [hg] at hst
      rcases List.mem_cons.mp hst with h | h
      · subst h
        simp only at hc
        cases hc
        exact hg
      · exact ih st h hc
    | none =>
      rw [hg] at hst
      exact ih st hst hc

/-- The store loop records an entry for every listed collection present
in the tree. -/
theorem storeLoop_exists_entry (t : CTree) (ds : List CollId) (d : CollId)
    (hd : d ∈ ds) (hmem : memC d t = true) :
    ∃ st ∈ storeLoop t ds, st.collection = some d := by
  induction ds with
  | nil => simp at hd
  | cons c cs ih =>
    rcases List.mem_cons.mp hd with h | h
    · subst h
      have : (getExcl d t).isSome = true := by rw [getExcl_isSome_eq_memC]; exact hmem
      cases hg : getExcl d t with
      | none => rw [hg] at this; simp at this
      | some e =>
        rw [storeLoop, hg]
        exact ⟨⟨some d, e⟩, List.mem_cons_self _ _, rfl⟩
    · obtain ⟨st, hst, hc⟩ := ih h
      rw [storeLoop]
      cases hg : getExcl c t with
      | none => exact ⟨st, hst, hc⟩
      | some e => exact ⟨st, List.mem_cons_of_mem _ hst, hc⟩

/-! ### Shape-key weight characterizations -/

/-- Mapping a constant function over options with equal presence gives
equal results. -/
theorem option_map_const {α β : Type} (o1 o2 : Option α) (c : β)
    (h : o1.isSome = o2.isSome) :
    o1.map (fun _ => c) = o2.map (fun _ => c) := by
  cases o1 <;> cases o2 <;> simp_all

/-- Effect of `setKB` on a by-name lookup. -/
theorem find?_setKB (name : String) (v : ℚ) (kbs : List KeyBlock) (n : String) :
    (setKB name v kbs).find? (fun kb => kb.name == n) =
      if name == n then
        (kbs.find? (fun kb => kb.name == n)).map (fun kb => { kb with value := v })
      else kbs.find? (fun kb => kb.name == n) := by
  induction kbs with
  | nil => simp [setKB]
  | cons kb rest ih =>
    by_cases h1 : kb.name == name
    · have h1' : kb.name = name := by simpa using h1
      by_cases h2 : kb.name == n
      · have h2' : kb.name = n := by simpa using h2
        have h3 : (name == n) = true := by simp [← h1', h2']
        have h4 : n = name := (h1'.symm.trans h2').symm
        simp [setKB, h1, List.find?_cons, h2, h3, h2', h4]
      · have h3 : (name == n) = false := by
          have : ¬ kb.name = n := by simpa using h2
          simp [← h1']
          exact this
        simp [setKB, h1, List.find?_cons, h2, h3]
    · by_cases h2 : kb.name == n
      · have h3 : (name == n) = false := by
          have hkn : kb.name = n := by simpa using h2
          have hne : ¬ kb.name = name := by simpa using h1
          simp [← hkn]
          exact fun hh => hne hh.symm
        simp [setKB, h1, List.find?_cons, h2, h3]
      · simp [setKB, h1, List.find?_cons, h2, ih]

/-- Pointwise effect of one override write on the live weights. -/
theorem readWeight_applyEntryValue (v : ℚ) (objs : ObjId → Obj) (sk : ShapeKeyEntry)
    (m : ObjId) (n : String) :
    readWeight (applyEntryValue v objs sk) m n =
      if sk.model == some m && sk.name == n && (readWeight objs m n).isSome then some v
      else readWeight objs m n := by
  cases hm : sk.model with
  | none => simp [applyEntryValue, hm]
  | some m' =>
    cases hsk : (objs m').shape_keys with
    | none =>
      by_cases hmm : m' = m
      · subst hmm
        have : readWeight objs m' n = none := by simp [readWeight, hsk]
        simp [applyEntryValue, hm, hsk, this]
      · have : (some m' == some m) = false := by simp [hmm]
        simp [applyEntryValue, hm, hsk, this]
    | some kbs =>
      by_cases hmm : m' = m
      · subst hmm
        have hrw : readWeight objs m' n = (kbs.find? (fun kb => kb.name == n)).map KeyBlock.value := by
          simp [readWeight, hsk]
        by_cases hn : sk.name == n
        · have hn' : sk.name = n := by simpa using hn
          simp only [applyEntryValue, hm, hsk, readWeight, if_pos rfl, hrw,
            find?_setKB, hn, if_true, beq_self_eq_true, Bool.true_and]
          cases hfind : kbs.find? (fun kb => kb.name == n) with
          | none => simp
          | some kb => simp
        · have hn3 : (sk.name == n) = false := by simpa using hn
          simp only [applyEntryValue, hm, hsk, readWeight, if_pos rfl, hrw,
            find?_setKB, hn3, if_false, beq_self_eq_true, Bool.true_and,
            Bool.false_and, Bool.false_eq_true, Bool.and_false]
          simp [find?_setKB, hn3]
      · have hmf : (some m' == some m) = false := by simp [hmm]
        have : readWeight (applyEntryValue v objs sk) m n = readWeight objs m n := by
          simp only [applyEntryValue, hm, hsk, readWeight]
          rw [if_neg (fun h => hmm h.symm)]
        rw [this]
        simp [hmf]

/-- One override write preserves weight presence. -/
theorem isSome_readWeight_applyEntryValue (v : ℚ) (objs : ObjId → Obj)
    (sk : ShapeKeyEntry) (m : ObjId) (n : String) :
    (readWeight (applyEntryValue v objs sk) m n).isSome = (readWeight objs m n).isSome := by
  rw [readWeight_applyEntryValue]
  by_cases h : (sk.model == some m && sk.name == n && (readWeight objs m n).isSome) = true
  · rw [if_pos h]
    simp only [Bool.and_eq_true] at h
    simp [h.2]
  · rw [if_neg h]

/-- The override-writing fold shared by the reset and apply passes, with
the written value given by `vf`. -/
def applyFold (vf : ShapeKeyEntry → ℚ) (objs : ObjId → Obj)
    (sks : List ShapeKeyEntry) : ObjId → Obj :=
  sks.foldl (fun os sk => applyEntryValue (vf sk) os sk) objs

/-- The reset pass is the override fold writing `0.0`. -/
theorem reset_eq_applyFold (objs : ObjId → Obj) (o : OutfitEntry) :
    reset_outfit_shape_keys objs o = applyFold (fun _ => 0) objs o.shape_keys := rfl

/-- The apply pass is the override fold writing the stored values. -/
theorem apply_eq_applyFold (objs : ObjId → Obj) (o : OutfitEntry) :
    apply_outfit_shape_keys objs o = applyFold ShapeKeyEntry.value objs o.shape_keys := rfl

/-- Pointwise effect of the override fold: the weight of `(m, n)` is
overwritten by the value of the last matching entry, when the weight is
present at all; and stays unchanged when no entry matches. -/
theorem readWeight_applyFold (vf : ShapeKeyEntry → ℚ) (sks : List ShapeKeyEntry)
    (objs : ObjId → Obj) (m : ObjId) (n : String) :
    readWeight (applyFold vf objs sks) m n =
      match (sks.filter fun sk => sk.model == some m && sk.name == n).getLast? with
      | none => readWeight objs m n
      | some sk => (readWeight objs m n).map (fun _ => vf sk) := by
  induction sks generalizing objs with
  | nil => simp [applyFold]
  | cons sk rest ih =>
    have hfold : applyFold vf objs (sk :: rest) =
        applyFold vf (applyEntryValue (vf sk) objs sk) rest := rfl
    rw [hfold, ih]
    cases hLast : (rest.filter fun sk => sk.model == some m && sk.name == n).getLast? with
    | some sk' =>
      have hne : (rest.filter fun sk => sk.model == some m && sk.name == n) ≠ [] := by
        intro hnil; rw [hnil] at hLast; simp at hLast
      have hcons :
          ((sk :: rest).filter fun sk => sk.model == some m && sk.name == n).getLast? =
            some sk' := by
        rw [List.filter_cons]
        by_cases hp : (sk.model == some m && sk.name == n) = true
        · rw [if_pos hp]
          cases hrf : rest.filter fun sk => sk.model == some m && sk.name == n with
          | nil => exact absurd hrf hne
          | cons a l =>
            rw [List.getLast?_cons_cons]
            rw [hrf] at hLast
            exact hLast
        · rw [if_neg hp]
          exact hLast
      rw [hcons]
      exact option_map_const _ _ _ (isSome_readWeight_applyEntryValue _ _ _ _ _)
    | none =>
      have hnil : (rest.filter fun sk => sk.model == some m && sk.name == n) = [] := by
        cases hrf : rest.filter fun sk => sk.model == some m && sk.name == n with
        | nil => rfl
        | cons a l =>
          rw [hrf] at hLast
          exfalso
          cases hll : (a :: l).getLast? with
          | none => simp [List.getLast?] at hll
          | some z => rw [hll] at hLast; simp at hLast
      rw [List.filter_cons]
      by_cases hp : (sk.model == some m && sk.name == n) = true
      · rw [if_pos hp, hnil]
        rw [readWeight_applyEntryValue]
        simp only [hp, Bool.true_and]
        cases hrw : readWeight objs m n with
        | none => simp
        | some w => simp
      · rw [if_neg hp, hnil]
        rw [readWeight_applyEntryValue]
        have hfalse : (sk.model == some m && sk.name == n) = false := by
          cases hb : (sk.model == some m && sk.name == n) with
          | false => rfl
          | true => exact absurd hb hp
        rw [hfalse]
        simp

/-! ### Scene-step projections -/

/-- `store_nested_states` only writes the snapshot field. -/
theorem store_nested_states_name (t : CTree) (o : OutfitEntry) :
    (store_nested_states t o).name = o.name := by
  cases h : o.collection <;> simp [store_nested_states, h]

/-- `store_nested_states` preserves the collection binding. -/
theorem store_nested_states_collection (t : CTree) (o : OutfitEntry) :
    (store_nested_states t o).collection = o.collection := by
  cases h : o.collection <;> simp [store_nested_states, h]

/-- `store_nested_states` preserves the override list. -/
theorem store_nested_states_shape_keys (t : CTree) (o : OutfitEntry) :
    (store_nested_states t o).shape_keys = o.shape_keys := by
  cases h : o.collection <;> simp [store_nested_states, h]

/-- `store_nested_states` preserves the active override index. -/
theorem store_nested_states_aski (t : CTree) (o : OutfitEntry) :
    (store_nested_states t o).active_shape_key_index = o.active_shape_key_index := by
  cases h : o.collection <;> simp [store_nested_states, h]

/-- Snapshot content for a bound outfit. -/
theorem store_nested_states_spec (t : CTree) (o : OutfitEntry) (c : CollId)
    (h : o.collection = some c) :
    (store_nested_states t o).nested_states = storeLoop t (nestedCollections t c) := by
  simp [store_nested_states, h]

/-- Restore on a bound outfit is the restore loop. -/
theorem restore_nested_states_some (o : OutfitEntry) (t : CTree) (c : CollId)
    (h : o.collection = some c) :
    restore_nested_states o t = restoreLoop o.nested_states t := by
  simp [restore_nested_states, h]

/-- Restore on an unbound outfit does nothing. -/
theorem restore_nested_states_none (o : OutfitEntry) (t : CTree)
    (h : o.collection = none) :
    restore_nested_states o t = t := by
  simp [restore_nested_states, h]

/-- `getD` after `set` at a different position. -/
theorem getD_set_ne {α : Type} (l : List α) (j j' : Nat) (a d : α) (h : j' ≠ j) :
    (l.set j a).getD j' d = l.getD j' d := by
  rw [List.getD, List.getD, List.get?_set_ne a l (fun hh => h hh.symm)]

/-- `getD` after `set` at the written position. -/
theorem getD_set_self {α : Type} (l : List α) (j : Nat) (a d : α) (h : j < l.length) :
    (l.set j a).getD j d = a := by
  rw [List.getD, List.get?_set_eq]
  cases hg : l.get? j with
  | none =>
    rw [List.get?_eq_none] at hg
    omega
  | some b => simp

/-- Step 1 with no current outfit is the identity. -/
theorem step1_none (s : Scene) : activate_step1 s none = s := rfl

/-- Step 1 does not touch the layer tree. -/
theorem step1_tree (s : Scene) (j? : Option Nat) :
    (activate_step1 s j?).layer_tree = s.layer_tree := by
  cases j? <;> rfl

/-- Step 1 does not touch the active outfit index. -/
theorem step1_idx (s : Scene) (j? : Option Nat) :
    (activate_step1 s j?).amarillo_active_outfit_index = s.amarillo_active_outfit_index := by
  cases j? <;> rfl

/-- Step 1 does not touch the model registry. -/
theorem step1_models (s : Scene) (j? : Option Nat) :
    (activate_step1 s j?).amarillo_managed_models = s.amarillo_managed_models := by
  cases j? <;> rfl

/-- Step 1 does not touch the model index. -/
theorem step1_model_idx (s : Scene) (j? : Option Nat) :
    (activate_step1 s j?).amarillo_active_model_index = s.amarillo_active_model_index := by
  cases j? <;> rfl

/-- Step 1's outfit-list update. -/
theorem step1_outfits_some (s : Scene) (j : Nat) :
    (activate_step1 s (some j)).amarillo_outfits =
      s.amarillo_outfits.set j
        (store_nested_states s.layer_tree (s.amarillo_outfits.getD j default)) := rfl

/-- Step 1's object update. -/
theorem step1_objs_some (s : Scene) (j : Nat) :
    (activate_step1 s (some j)).objs =
      reset_outfit_shape_keys s.objs
        (store_nested_states s.layer_tree (s.amarillo_outfits.getD j default)) := rfl

/-- Step 1 preserves the outfit count. -/
theorem step1_outfits_length (s : Scene) (j? : Option Nat) :
    (activate_step1 s j?).amarillo_outfits.length = s.amarillo_outfits.length := by
  cases j? with
  | none => rfl
  | some j => rw [step1_outfits_some, List.length_set]

/-- Step 1 preserves every outfit's override list. -/
theorem step1_shape_keys (s : Scene) (j? : Option Nat) (j' : Nat) :
    ((activate_step1 s j?).amarillo_outfits.getD j' default).shape_keys =
      (s.amarillo_outfits.getD j' default).shape_keys := by
  cases j? with
  | none => rfl
  | some j =>
    rw [step1_outfits_some]
    by_cases hj : j' = j
    · subst hj
      by_cases hlen : j' < s.amarillo_outfits.length
      · rw [getD_set_self _ _ _ _ hlen, store_nested_states_shape_keys]
      · rw [List.set_eq_of_length_le (by omega)]
    · rw [getD_set_ne _ _ _ _ _ hj]

/-- Step 1 preserves every outfit's collection binding. -/
theorem step1_collection (s : Scene) (j? : Option Nat) (j' : Nat) :
    ((activate_step1 s j?).amarillo_outfits.getD j' default).collection =
      (s.amarillo_outfits.getD j' default).collection := by
  cases j? with
  | none => rfl
  | some j =>
    rw [step1_outfits_some]
    by_cases hj : j' = j
    · subst hj
      by_cases hlen : j' < s.amarillo_outfits.length
      · rw [getD_set_self _ _ _ _ hlen, store_nested_states_collection]
      · rw [List.set_eq_of_length_le (by omega)]
    · rw [getD_set_ne _ _ _ _ _ hj]

/-- Step 1 preserves every outfit's name. -/
theorem step1_name (s : Scene) (j? : Option Nat) (j' : Nat) :
    ((activate_step1 s j?).amarillo_outfits.getD j' default).name =
      (s.amarillo_outfits.getD j' default).name := by
  cases j? with
  | none => rfl
  | some j =>
    rw [step1_outfits_some]
    by_cases hj : j' = j
    · subst hj
      by_cases hlen : j' < s.amarillo_outfits.length
      · rw [getD_set_self _ _ _ _ hlen, store_nested_states_name]
      · rw [List.set_eq_of_length_le (by omega)]
    · rw [getD_set_ne _ _ _ _ _ hj]

/-- Step 1 preserves every outfit's active override index. -/
theorem step1_aski (s : Scene) (j? : Option Nat) (j' : Nat) :
    ((activate_step1 s j?).amarillo_outfits.getD j' default).active_shape_key_index =
      (s.amarillo_outfits.getD j' default).active_shape_key_index := by
  cases j? with
  | none => rfl
  | some j =>
    rw [step1_outfits_some]
    by_cases hj : j' = j
    · subst hj
      by_cases hlen : j' < s.amarillo_outfits.length
      · rw [getD_set_self _ _ _ _ hlen, store_nested_states_aski]
      · rw [List.set_eq_of_length_le (by omega)]
    · rw [getD_set_ne _ _ _ _ _ hj]

/-- Step 1 preserves the snapshot of every outfit other than the current
one. -/
theorem step1_nested_states_other (s : Scene) (j j' : Nat) (h : j' ≠ j) :
    ((activate_step1 s (some j)).amarillo_outfits.getD j' default).nested_states =
      (s.amarillo_outfits.getD j' default).nested_states := by
  rw [step1_outfits_some, getD_set_ne _ _ _ _ _ h]

/-- Hide-all only writes the layer tree. -/
theorem hide_all_fields (s : Scene) :
    (activate_hide_all s).amarillo_outfits = s.amarillo_outfits ∧
    (activate_hide_all s).amarillo_active_outfit_index = s.amarillo_active_outfit_index ∧
    (activate_hide_all s).amarillo_managed_models = s.amarillo_managed_models ∧
    (activate_hide_all s).amarillo_active_model_index = s.amarillo_active_model_index ∧
    (activate_hide_all s).objs = s.objs ∧
    (activate_hide_all s).layer_tree = hideAll s.amarillo_outfits s.layer_tree :=
  ⟨rfl, rfl, rfl, rfl, rfl, rfl⟩

/-- Show-target on an unbound target does nothing. -/
theorem show_target_none (s : Scene) (tIdx : Nat)
    (h : (s.amarillo_outfits.getD tIdx default).collection = none) :
    activate_show_target s tIdx = s := by
  simp only [activate_show_target]
  rw [h]

/-- Show-target on an unresolvable bound target does nothing. -/
theorem show_target_notmem (s : Scene) (tIdx : Nat) (c : CollId)
    (h : (s.amarillo_outfits.getD tIdx default).collection = some c)
    (hm : memC c s.layer_tree = false) :
    activate_show_target s tIdx = s := by
  simp only [activate_show_target]
  rw [h]
  simp [hm]

/-- Show-target on a resolvable bound target: clear the target root's
flag, then run the restore. -/
theorem show_target_some (s : Scene) (tIdx : Nat) (c : CollId)
    (h : (s.amarillo_outfits.getD tIdx default).collection = some c)
    (hm : memC c s.layer_tree = true) :
    activate_show_target s tIdx =
      { s with layer_tree := restore_nested_states (s.amarillo_outfits.getD tIdx default) (setExcl c false s.layer_tree) } := by
  simp only [activate_show_target]
  rw [h]
  simp [hm]

/-- Show-target only writes the layer tree. -/
theorem show_target_fields (s : Scene) (tIdx : Nat) :
    (activate_show_target s tIdx).amarillo_outfits = s.amarillo_outfits ∧
    (activate_show_target s tIdx).amarillo_active_outfit_index =
      s.amarillo_active_outfit_index ∧
    (activate_show_target s tIdx).amarillo_managed_models = s.amarillo_managed_models ∧
    (activate_show_target s tIdx).amarillo_active_model_index =
      s.amarillo_active_model_index ∧
    (activate_show_target s tIdx).objs = s.objs := by
  cases h : (s.amarillo_outfits.getD tIdx default).collection with
  | none =>
    rw [show_target_none s tIdx h]
    exact ⟨rfl, rfl, rfl, rfl, rfl⟩
  | some c =>
    cases hm : memC c s.layer_tree with
    | false =>
      rw [show_target_notmem s tIdx c h hm]
      exact ⟨rfl, rfl, rfl, rfl, rfl⟩
    | true =>
      rw [show_target_some s tIdx c h hm]
      exact ⟨rfl, rfl, rfl, rfl, rfl⟩

/-- Apply-keys only writes the objects. -/
theorem apply_keys_fields (s : Scene) (tIdx : Nat) :
    (activate_apply_keys s tIdx).amarillo_outfits = s.amarillo_outfits ∧
    (activate_apply_keys s tIdx).amarillo_active_outfit_index =
      s.amarillo_active_outfit_index ∧
    (activate_apply_keys s tIdx).amarillo_managed_models = s.amarillo_managed_models ∧
    (activate_apply_keys s tIdx).amarillo_active_model_index =
      s.amarillo_active_model_index ∧
    (activate_apply_keys s tIdx).layer_tree = s.layer_tree ∧
    (activate_apply_keys s tIdx).objs =
      apply_outfit_shape_keys s.objs (s.amarillo_outfits.getD tIdx default) :=
  ⟨rfl, rfl, rfl, rfl, rfl, rfl⟩

/-! ### Execute-unfolding lemmas -/

/-- Python indexing with an in-range non-negative index. -/
theorem pyIdx_inbounds (n : Nat) (i : Int) (h0 : 0 ≤ i) (h1 : i < (n : Int)) :
    pyIdx n i = some i.toNat := by
  rw [pyIdx, if_pos h0, if_pos h1]

/-- Python indexing with an in-range natural index. -/
theorem pyIdx_natCast (n k : Nat) (h : k < n) :
    pyIdx n (k : Int) = some k := by
  rw [pyIdx_inbounds n k (by positivity) (by exact_mod_cast h), Int.toNat_natCast]

/-- Current-outfit resolution when the scene index is in bounds. -/
theorem resolveCurrent_inbounds (s : Scene)
    (h0 : 0 ≤ s.amarillo_active_outfit_index)
    (h1 : s.amarillo_active_outfit_index < (s.amarillo_outfits.length : Int)) :
    resolveCurrent s = some (some s.amarillo_active_outfit_index.toNat) := by
  rw [resolveCurrent, if_pos h1, pyIdx_inbounds _ _ h0 h1]

/-- Quick-activation run with an in-range natural target. -/
theorem quick_activate_eq (s : Scene) (tIdx : Nat)
    (ht : tIdx < s.amarillo_outfits.length) (j? : Option Nat)
    (hres : resolveCurrent s = some j?) :
    quick_activate_execute s (tIdx : Int) =
      some ({ activation_pipeline s j? tIdx with
                amarillo_active_outfit_index := (tIdx : Int) }, OpResult.FINISHED) := by
  rw [quick_activate_execute,
    if_neg (by exact_mod_cast Nat.not_le.mpr ht), hres, pyIdx_natCast _ _ ht]

/-- Selected-outfit activation run with an in-bounds scene index. -/
theorem activate_outfit_eq (s : Scene)
    (h0 : 0 ≤ s.amarillo_active_outfit_index)
    (h1 : s.amarillo_active_outfit_index < (s.amarillo_outfits.length : Int)) :
    activate_outfit_execute s =
      some (activation_pipeline s (some s.amarillo_active_outfit_index.toNat)
              s.amarillo_active_outfit_index.toNat, OpResult.FINISHED) := by
  rw [activate_outfit_execute, pyIdx_inbounds _ _ h0 h1]

/-! ### Pipeline projections -/

/-- The activation pipeline does not write the scene's active outfit
index. -/
theorem pipeline_idx (s : Scene) (j? : Option Nat) (tIdx : Nat) :
    (activation_pipeline s j? tIdx).amarillo_active_outfit_index =
      s.amarillo_active_outfit_index := by
  unfold activation_pipeline
  rw [(apply_keys_fields _ _).2.1, (show_target_fields _ _).2.1,
    (hide_all_fields _).2.1, step1_idx]

/-- The activation pipeline does not write the model registry. -/
theorem pipeline_models (s : Scene) (j? : Option Nat) (tIdx : Nat) :
    (activation_pipeline s j? tIdx).amarillo_managed_models =
      s.amarillo_managed_models := by
  unfold activation_pipeline
  rw [(apply_keys_fields _ _).2.2.1, (show_target_fields _ _).2.2.1,
    (hide_all_fields _).2.2.1, step1_models]

/-- The activation pipeline does not write the model index. -/
theorem pipeline_model_idx (s : Scene) (j? : Option Nat) (tIdx : Nat) :
    (activation_pipeline s j? tIdx).amarillo_active_model_index =
      s.amarillo_active_model_index := by
  unfold activation_pipeline
  rw [(apply_keys_fields _ _).2.2.2.1, (show_target_fields _ _).2.2.2.1,
    (hide_all_fields _).2.2.2.1, step1_model_idx]

/-- The activation pipeline's outfit list is step 1's. -/
theorem pipeline_outfits (s : Scene) (j? : Option Nat) (tIdx : Nat) :
    (activation_pipeline s j? tIdx).amarillo_outfits =
      (activate_step1 s j?).amarillo_outfits := by
  unfold activation_pipeline
  rw [(apply_keys_fields _ _).1, (show_target_fields _ _).1, (hide_all_fields _).1]

/-- Overwriting the active index with its own value is the identity. -/
theorem scene_set_idx_self (P : Scene) (i : Int)
    (h : P.amarillo_active_outfit_index = i) :
    { P with amarillo_active_outfit_index := i } = P := by
  rw [← h]

/-- Snapshot-then-restore writes back the flags it just read. -/
theorem restoreLoop_storeLoop (t : CTree) (ds : List CollId) :
    restoreLoop (storeLoop t ds) t = t := by
  induction ds with
  | nil => rfl
  | cons c cs ih =>
    cases hg : getExcl c t with
    | none => rw [storeLoop, hg]; exact ih
    | some e =>
      rw [storeLoop, hg]
      rw [restoreLoop_cons_some _ _ _ c rfl]
      simp only
      rw [setExcl_of_getExcl_eq c e t hg]
      exact ih

/-! ### Claim theorems -/

/-- Objects with no shape-key data, used by concrete scenes. -/
def bareObjs : ObjId → Obj := fun _ => ⟨none, 0⟩

/-- Concrete scene refuting a literal reading of remove-outfit: two
outfits named `A` and `B`, selected index `1`. -/
def c1Scene : Scene :=
  ⟨[⟨"A", none, [⟨"k", 1/2, some 7⟩], 0, []⟩, ⟨"B", none, [⟨"m", 1/3, some 8⟩], 0, []⟩],
    1, [], 0, bareObjs, .node 0 false []⟩

/-- C1: with outfits `[A, B]` and selected index `1`, the remove-outfit
operator clears the overrides of the selected outfit `B` but then — the
source decrements the scene index to `0` before calling
`outfits.remove` — removes outfit `A` at index `0`.  The selected outfit
`B` survives (with its overrides wrongly cleared) and the unselected
outfit `A` is deleted, contradicting the operator's own description
"Remove the selected outfit entry" and the claim. -/
theorem c1_remove_outfit_removes_wrong_outfit :
    (remove_outfit_execute c1Scene).map
        (fun p => (p.1.amarillo_outfits.map OutfitEntry.name,
                   p.1.amarillo_outfits.map (fun o => o.shape_keys.length), p.2)) =
      some (["B"], [0], OpResult.FINISHED) ∧
    c1Scene.amarillo_active_outfit_index = 1 ∧
    c1Scene.amarillo_outfits.map OutfitEntry.name = ["A", "B"] :=
  ⟨rfl, rfl, rfl⟩

/-- Concrete scene for the out-of-bounds activation bug: one outfit,
valid scene index `0`. -/
def c4Scene : Scene :=
  ⟨[⟨"A", none, [], 0, []⟩], 0, [], 0, bareObjs, .node 0 false []⟩

/-- Concrete scene with no outfits at all. -/
def c4Empty : Scene :=
  ⟨[], 0, [], 0, bareObjs, .node 0 false []⟩

/-- C4: quick activation with target index `-1` (out of bounds per the
claim) passes the source's `outfit_index >= len(outfits)` check, wraps
around Python-style to the last outfit, runs the full transition,
reports `FINISHED` and writes `-1` into the scene's active index — a
mutation with no cancellation.  And the selected-outfit entry point on
an empty outfit list raises an uncaught `IndexError` instead of
cancelling. -/
theorem c4_out_of_bounds_activation_bug :
    quick_activate_execute c4Scene (-1) =
      some ({ c4Scene with amarillo_active_outfit_index := -1 }, OpResult.FINISHED) ∧
    activate_outfit_execute c4Empty = none :=
  ⟨rfl, rfl⟩

/-- Objects for the add-shape-key scenes: object `7` has keys `Basis`
and `Smile`, with `Basis` active. -/
def c9BasisObjs : ObjId → Obj :=
  fun i => if i = 7 then ⟨some [⟨"Basis", 0⟩, ⟨"Smile", 1⟩], 0⟩ else ⟨none, 0⟩

/-- Objects for the add-shape-key scenes: object `7` has keys `Basis`
and `Smile`, with `Smile` active at weight `1`. -/
def c9SmileObjs : ObjId → Obj :=
  fun i => if i = 7 then ⟨some [⟨"Basis", 0⟩, ⟨"Smile", 1⟩], 1⟩ else ⟨none, 0⟩

/-- Scene with an empty model registry and the default model index `0`:
the state every fresh scene starts in. -/
def c9EmptyRegistry : Scene :=
  ⟨[⟨"O", none, [], 0, []⟩], 0, [], 0, bareObjs, .node 0 false []⟩

/-- Scene whose selected model's active key is `Basis`. -/
def c9BasisScene : Scene :=
  ⟨[⟨"O", none, [], 0, []⟩], 0, [⟨some 7⟩], 0, c9BasisObjs, .node 0 false []⟩

/-- Scene whose selected model's active key is `Smile`. -/
def c9SmileScene : Scene :=
  ⟨[⟨"O", none, [], 0, []⟩], 0, [⟨some 7⟩], 0, c9SmileObjs, .node 0 false []⟩

/-- C9: on the no-model-selected state every fresh scene starts in
(empty registry, default model index `0`), add-shape-key raises an
uncaught `IndexError` — the source checks `active_model_index >= 0` but
not the upper bound — instead of the claimed cancellation without
mutation.  The other clauses of the claim do hold: a `Basis` active key
is rejected with `CANCELLED` and no change to the scene, and a
successful add captures the active key's name and current weight. -/
theorem c9_add_shape_key_bug :
    add_shape_key_execute c9EmptyRegistry = none ∧
    add_shape_key_execute c9BasisScene = some (c9BasisScene, OpResult.CANCELLED) ∧
    (add_shape_key_execute c9SmileScene).map
        (fun p => ((p.1.amarillo_outfits.getD 0 default).shape_keys, p.2)) =
      some ([⟨"Smile", 1, some 7⟩], OpResult.FINISHED) :=
  ⟨rfl, rfl, by decide⟩

/-- Concrete scene refuting C2 as stated: one managed model (object
`5`), one outfit whose single override references a different object
`9`, and an already-out-of-bounds active override index `3`. -/
def c2Scene : Scene :=
  ⟨[⟨"O", none, [⟨"k", 0, some 9⟩], 3, []⟩], 0, [⟨some 5⟩], 0, bareObjs,
    .node 0 false []⟩

/-- C2 counterexample: removing the model at the valid index `0`
removes no override of the outfit (none references object `5`), so the
cascade's clamp never fires and the outfit's active override index stays
at `3`, outside `[0, len-1] = [0, 0]` — the operation still reports
`FINISHED`.  The claim's "for every registry state" therefore fails on
states whose active override index starts out of bounds. -/
theorem c2_counterexample :
    (remove_managed_model_execute c2Scene).2 = OpResult.FINISHED ∧
    ((remove_managed_model_execute c2Scene).1.amarillo_outfits.getD 0
        default).shape_keys.length = 1 ∧
    ((remove_managed_model_execute c2Scene).1.amarillo_outfits.getD 0
        default).active_shape_key_index = 3 ∧
    ¬ ((remove_managed_model_execute c2Scene).1.amarillo_outfits.getD 0
        default).active_shape_key_index ≤
      (((remove_managed_model_execute c2Scene).1.amarillo_outfits.getD 0
          default).shape_keys.length : Int) - 1 := by
  refine ⟨rfl, rfl, rfl, ?_⟩
  decide

/-- Tree for the C5 counterexample: root `0` with children `1` (outfit
`T`'s collection) and `2` (outfit `B`'s collection). -/
def c5Tree : CTree := .node 0 false [.node 1 false [], .node 2 false []]

/-- Concrete scene refuting C5 as stated: outfit `T` (index `0`, bound
to collection `1`) holds a stale snapshot entry `(2, false)` recording
collection `2`, which is outfit `B`'s bound collection; the current
outfit is `B` (index `1`). -/
def c5Scene : Scene :=
  ⟨[⟨"T", some 1, [], 0, [⟨some 2, false⟩]⟩, ⟨"B", some 2, [], 0, []⟩],
    1, [], 0, bareObjs, c5Tree⟩

/-- C5 counterexample: activating `T` (index `0`) hides all outfit
collections — including `B`'s collection `2` — but then restores `T`'s
snapshot, whose entry `(2, false)` un-hides collection `2` again.  After
the transition the non-target outfit `B`'s resolvable bound collection
reads `false`, where the claim demands `true` for every other outfit's
resolvable bound collection. -/
theorem c5_counterexample :
    (quick_activate_execute c5Scene 0).map
        (fun p => (getExcl 2 p.1.layer_tree, p.2)) =
      some (some false, OpResult.FINISHED) ∧
    (c5Scene.amarillo_outfits.getD 1 default).collection = some 2 ∧
    memC 2 c5Scene.layer_tree = true :=
  ⟨rfl, rfl, rfl⟩

/-- Tree for the C8 counterexample: root `0` with children `1` (outfit
`T`'s collection) and `2` (outfit `B`'s collection, initially
excluded). -/
def c8Tree : CTree := .node 0 false [.node 1 false [], .node 2 true []]

/-- Concrete scene refuting C8 as stated: outfit `T` (index `1`) holds
a stale snapshot entry `(2, false)` for a collection that is not a
descendant of `T`'s collection `1`; current outfit is `A` (index `0`,
unbound). -/
def c8Scene : Scene :=
  ⟨[⟨"A", none, [], 0, []⟩, ⟨"T", some 1, [], 0, [⟨some 2, false⟩]⟩,
      ⟨"B", some 2, [], 0, []⟩],
    0, [], 0, bareObjs, c8Tree⟩

/-- C8 counterexample: the first activation of `T` restores `T`'s stale
snapshot entry and leaves collection `2` at `false`; re-activating `T`
rebuilds `T`'s snapshot from its (empty) descendant set, so the hide-all
pass sets collection `2` to `true` and nothing restores it — the second
activation changes a visibility flag, refuting idempotence on reached
states. -/
theorem c8_counterexample :
    (quick_activate_execute c8Scene 1).map (fun p => getExcl 2 p.1.layer_tree) =
      some (some false) ∧
    ((quick_activate_execute c8Scene 1).bind
        (fun p => quick_activate_execute p.1 1)).map
        (fun p => getExcl 2 p.1.layer_tree) =
      some (some true) :=
  ⟨rfl, rfl⟩

/-- C7: snapshotting an outfit's nested visibility and immediately
restoring it, with no intervening change, leaves every collection's
exclusion flag — in particular every descendant's — unchanged. -/
theorem c7_snapshot_restore_roundtrip (o : OutfitEntry) (t : CTree) (d : CollId) :
    getExcl d (restore_nested_states (store_nested_states t o) t) = getExcl d t := by
  cases hc : o.collection with
  | none =>
    have h1 : store_nested_states t o = o := by simp [store_nested_states, hc]
    rw [h1, restore_nested_states_none o t hc]
  | some c =>
    have hst : (store_nested_states t o).collection = some c := by
      rw [store_nested_states_collection, hc]
    rw [restore_nested_states_some _ t c hst, store_nested_states_spec t o c hc,
      restoreLoop_storeLoop]

/-- C3: when the scene's selected outfit index is in bounds, the
selected-outfit activation operator and the quick-activation operator
targeting that same index produce identical results — the same final
scene (visibility flags, weights, snapshots, active index) and the same
report. -/
theorem c3_activate_refines_quick_activate (s : Scene)
    (h0 : 0 ≤ s.amarillo_active_outfit_index)
    (h1 : s.amarillo_active_outfit_index < (s.amarillo_outfits.length : Int)) :
    activate_outfit_execute s = quick_activate_execute s s.amarillo_active_outfit_index := by
  have htn : s.amarillo_active_outfit_index.toNat < s.amarillo_outfits.length := by omega
  have hcast : ((s.amarillo_active_outfit_index.toNat : Nat) : Int) =
      s.amarillo_active_outfit_index := Int.toNat_of_nonneg h0
  have hq := quick_activate_eq s s.amarillo_active_outfit_index.toNat htn
    (some s.amarillo_active_outfit_index.toNat) (resolveCurrent_inbounds s h0 h1)
  rw [hcast] at hq
  rw [activate_outfit_eq s h0 h1, hq,
    scene_set_idx_self _ _ (pipeline_idx s _ _)]

/-- C3 witness: a concrete two-outfit scene with selected index `1`. -/
def c3Scene : Scene :=
  ⟨[⟨"A", some 1, [], 0, []⟩, ⟨"B", some 2, [], 0, []⟩], 1, [], 0, bareObjs, c5Tree⟩

/-- Witness for C3 at the concrete scene `c3Scene`. -/
theorem c3_activate_refines_quick_activate_witness :
    0 ≤ c3Scene.amarillo_active_outfit_index ∧
    c3Scene.amarillo_active_outfit_index < (c3Scene.amarillo_outfits.length : Int) ∧
    activate_outfit_execute c3Scene =
      quick_activate_execute c3Scene c3Scene.amarillo_active_outfit_index :=
  ⟨by decide, by decide,
    c3_activate_refines_quick_activate c3Scene (by decide) (by decide)⟩

/-! ### Remove-managed-model cascade -/

/-- One cascade removal erases the given override position. -/
theorem removeStep_shape_keys (o : OutfitEntry) (i : Nat) :
    (removeStep o i).shape_keys = o.shape_keys.eraseIdx i := rfl

/-- One cascade removal's index clamp. -/
theorem removeStep_aski (o : OutfitEntry) (i : Nat) :
    (removeStep o i).active_shape_key_index =
      if ((o.shape_keys.eraseIdx i).length : Int) ≤ o.active_shape_key_index then
        max 0 (((o.shape_keys.eraseIdx i).length : Int) - 1)
      else o.active_shape_key_index := rfl

/-- Erasing at shifted positions leaves the head in place. -/
theorem foldl_eraseIdx_map_succ {α : Type} (js : List Nat) (x : α) (l : List α) :
    (js.map (· + 1)).foldl (fun acc i => acc.eraseIdx i) (x :: l) =
      x :: js.foldl (fun acc i => acc.eraseIdx i) l := by
  induction js generalizing l with
  | nil => rfl
  | cons j js ih =>
    simp only [List.map_cons, List.foldl_cons, List.eraseIdx_cons_succ]
    exact ih _

/-- Erasing the matching positions from highest to lowest is
filtering. -/
theorem foldl_eraseIdx_matchIdxs (p : ShapeKeyEntry → Bool) :
    ∀ l : List ShapeKeyEntry,
      ((matchIdxs p l).reverse).foldl (fun acc i => acc.eraseIdx i) l =
        l.filter (fun x => !p x)
  | [] => rfl
  | x :: xs => by
    rw [matchIdxs, List.reverse_append, List.foldl_append, ← List.map_reverse,
      foldl_eraseIdx_map_succ, foldl_eraseIdx_matchIdxs p xs]
    by_cases hp : p x
    · simp [hp, List.filter_cons]
    · simp [hp, List.filter_cons]

/-- The cascade's override-list component ignores the index clamps. -/
theorem foldl_removeStep_shape_keys :
    ∀ (idxs : List Nat) (o : OutfitEntry),
      (idxs.foldl removeStep o).shape_keys =
        idxs.foldl (fun acc i => acc.eraseIdx i) o.shape_keys
  | [], o => rfl
  | i :: idxs, o => by
    rw [List.foldl_cons, List.foldl_cons, foldl_removeStep_shape_keys idxs,
      removeStep_shape_keys]

/-- The cascade removes exactly the overrides referencing the removed
model, preserving the order of the rest. -/
theorem cascadeRemove_shape_keys (target : Option ObjId) (o : OutfitEntry) :
    (cascadeRemove target o).shape_keys =
      o.shape_keys.filter (fun sk => !(sk.model == target)) := by
  rw [cascadeRemove, foldl_removeStep_shape_keys, foldl_eraseIdx_matchIdxs]

/-- The in-bounds invariant of an outfit's active override index: the
index lies in `[0, len-1]`, or is `0` when the override list is
empty. -/
def skInv (o : OutfitEntry) : Prop :=
  0 ≤ o.active_shape_key_index ∧
    (o.active_shape_key_index < (o.shape_keys.length : Int) ∨
      (o.shape_keys.length = 0 ∧ o.active_shape_key_index = 0))

instance (o : OutfitEntry) : Decidable (skInv o) := by
  unfold skInv
  infer_instance

/-- One cascade removal preserves the index invariant. -/
theorem removeStep_inv (o : OutfitEntry) (i : Nat) (h : skInv o) :
    skInv (removeStep o i) := by
  obtain ⟨h0, h1⟩ := h
  unfold skInv
  rw [removeStep_shape_keys, removeStep_aski]
  by_cases hle : ((o.shape_keys.eraseIdx i).length : Int) ≤ o.active_shape_key_index
  · rw [if_pos hle]
    omega
  · rw [if_neg hle]
    omega

/-- The whole cascade preserves the index invariant. -/
theorem foldl_removeStep_inv :
    ∀ (idxs : List Nat) (o : OutfitEntry), skInv o → skInv (idxs.foldl removeStep o)
  | [], o, h => h
  | i :: idxs, o, h => by
    rw [List.foldl_cons]
    exact foldl_removeStep_inv idxs _ (removeStep_inv o i h)

/-- `getD` through `map` at an in-range position. -/
theorem getD_map_of_lt {α β : Type} (f : α → β) (l : List α) (j : Nat) (d : β)
    (d' : α) (h : j < l.length) : (l.map f).getD j d = f (l.getD j d') := by
  rw [List.getD, List.getD, List.get?_map]
  cases hg : l.get? j with
  | none =>
    rw [List.get?_eq_none] at hg
    omega
  | some a => simp

/-- C2 (amended with the in-bounds precondition): for every scene in
which every outfit's active override index is in bounds, removing the
managed model at a valid registry index reports `FINISHED`, keeps the
outfit count, removes from every outfit exactly the overrides whose
model reference equals the removed object (in particular none
referencing any other model, order preserved), re-establishes every
outfit's index invariant, and removes the registry entry. -/
theorem c2_remove_managed_model_cascade (s : Scene)
    (h0 : 0 ≤ s.amarillo_active_model_index)
    (h1 : s.amarillo_active_model_index < (s.amarillo_managed_models.length : Int))
    (hinv : ∀ j, j < s.amarillo_outfits.length →
      skInv (s.amarillo_outfits.getD j default)) :
    (remove_managed_model_execute s).2 = OpResult.FINISHED ∧
    (remove_managed_model_execute s).1.amarillo_outfits.length =
      s.amarillo_outfits.length ∧
    (∀ j, j < s.amarillo_outfits.length →
      ((remove_managed_model_execute s).1.amarillo_outfits.getD j default).shape_keys =
        (s.amarillo_outfits.getD j default).shape_keys.filter
          (fun sk => !(sk.model ==
            (s.amarillo_managed_models.getD
              s.amarillo_active_model_index.toNat default).object)) ∧
      skInv ((remove_managed_model_execute s).1.amarillo_outfits.getD j default)) ∧
    (remove_managed_model_execute s).1.amarillo_managed_models =
      s.amarillo_managed_models.eraseIdx s.amarillo_active_model_index.toNat := by
  have hcond : 0 ≤ s.amarillo_active_model_index ∧
      s.amarillo_active_model_index < (s.amarillo_managed_models.length : Int) :=
    ⟨h0, h1⟩
  unfold remove_managed_model_execute
  rw [if_pos hcond]
  refine ⟨rfl, by simp, ?_, rfl⟩
  intro j hj
  have hmap := getD_map_of_lt
    (cascadeRemove (s.amarillo_managed_models.getD
      s.amarillo_active_model_index.toNat default).object)
    s.amarillo_outfits j default default hj
  constructor
  · simp only
    rw [hmap, cascadeRemove_shape_keys]
  · simp only
    rw [hmap]
    exact foldl_removeStep_inv _ _ (hinv j hj)

/-- C2 witness scene: one model (object `5`), one outfit with one
override of object `5` and one of object `9`, active override index
`1`. -/
def c2wScene : Scene :=
  ⟨[⟨"O", none, [⟨"k", 0, some 5⟩, ⟨"m", 0, some 9⟩], 1, []⟩], 0, [⟨some 5⟩], 0,
    bareObjs, .node 0 false []⟩

/-- Witness for C2's amended theorem at `c2wScene`. -/
theorem c2_remove_managed_model_cascade_witness :
    (0 ≤ c2wScene.amarillo_active_model_index ∧
      c2wScene.amarillo_active_model_index <
        (c2wScene.amarillo_managed_models.length : Int)) ∧
    ((remove_managed_model_execute c2wScene).2 = OpResult.FINISHED ∧
    (remove_managed_model_execute c2wScene).1.amarillo_outfits.length =
      c2wScene.amarillo_outfits.length ∧
    (∀ j, j < c2wScene.amarillo_outfits.length →
      ((remove_managed_model_execute c2wScene).1.amarillo_outfits.getD j
          default).shape_keys =
        (c2wScene.amarillo_outfits.getD j default).shape_keys.filter
          (fun sk => !(sk.model ==
            (c2wScene.amarillo_managed_models.getD
              c2wScene.amarillo_active_model_index.toNat default).object)) ∧
      skInv ((remove_managed_model_execute c2wScene).1.amarillo_outfits.getD j
          default)) ∧
    (remove_managed_model_execute c2wScene).1.amarillo_managed_models =
      c2wScene.amarillo_managed_models.eraseIdx
        c2wScene.amarillo_active_model_index.toNat) :=
  ⟨⟨by decide, by decide⟩,
    c2_remove_managed_model_cascade c2wScene (by decide) (by decide)
      (fun j hj => by
        have hlen : c2wScene.amarillo_outfits.length = 1 := rfl
        have hj0 : j = 0 := by omega
        subst hj0
        decide)⟩

/-! ### Activation frame conditions -/

/-- The frame of an activation transition with previous-outfit position
`jc`: outfit count, every outfit's name, collection binding, override
list and active override index, the snapshot of every outfit other than
the previous one, and the model registry with its index, are all
unchanged. -/
def activationFrame (s s' : Scene) (jc : Nat) : Prop :=
  s'.amarillo_outfits.length = s.amarillo_outfits.length ∧
  (∀ j' : Nat,
    (s'.amarillo_outfits.getD j' default).name =
      (s.amarillo_outfits.getD j' default).name ∧
    (s'.amarillo_outfits.getD j' default).collection =
      (s.amarillo_outfits.getD j' default).collection ∧
    (s'.amarillo_outfits.getD j' default).shape_keys =
      (s.amarillo_outfits.getD j' default).shape_keys ∧
    (s'.amarillo_outfits.getD j' default).active_shape_key_index =
      (s.amarillo_outfits.getD j' default).active_shape_key_index) ∧
  (∀ j' : Nat, j' ≠ jc →
    (s'.amarillo_outfits.getD j' default).nested_states =
      (s.amarillo_outfits.getD j' default).nested_states) ∧
  s'.amarillo_managed_models = s.amarillo_managed_models ∧
  s'.amarillo_active_model_index = s.amarillo_active_model_index

/-- The activation pipeline satisfies the frame. -/
theorem pipeline_frame (s : Scene) (jc tIdx : Nat) :
    activationFrame s (activation_pipeline s (some jc) tIdx) jc := by
  unfold activationFrame
  refine ⟨?_, ?_, ?_, ?_, ?_⟩
  · rw [pipeline_outfits, step1_outfits_length]
  · intro j'
    rw [pipeline_outfits]
    exact ⟨step1_name s (some jc) j', step1_collection s (some jc) j',
      step1_shape_keys s (some jc) j', step1_aski s (some jc) j'⟩
  · intro j' hj'
    rw [pipeline_outfits]
    exact step1_nested_states_other s jc j' hj'
  · rw [pipeline_models]
  · rw [pipeline_model_idx]

/-- C10: an in-bounds activation transition, through either entry
point, never mutates the outfit sequence (count, names, bound
collections, override lists with their counts, names, model references
and stored weights, active override indices), only rebuilds the
previous outfit's snapshot, and leaves the model registry and its index
untouched; the quick entry point additionally writes only the scene's
active outfit index. -/
theorem c10_activation_frame :
    (∀ (s : Scene) (s' : Scene) (r : OpResult),
      0 ≤ s.amarillo_active_outfit_index →
      s.amarillo_active_outfit_index < (s.amarillo_outfits.length : Int) →
      activate_outfit_execute s = some (s', r) →
      activationFrame s s' s.amarillo_active_outfit_index.toNat ∧
        s'.amarillo_active_outfit_index = s.amarillo_active_outfit_index) ∧
    (∀ (s : Scene) (tIdx : Nat) (s' : Scene) (r : OpResult),
      tIdx < s.amarillo_outfits.length →
      0 ≤ s.amarillo_active_outfit_index →
      s.amarillo_active_outfit_index < (s.amarillo_outfits.length : Int) →
      quick_activate_execute s (tIdx : Int) = some (s', r) →
      activationFrame s s' s.amarillo_active_outfit_index.toNat ∧
        s'.amarillo_active_outfit_index = (tIdx : Int)) := by
  constructor
  · intro s s' r h0 h1 hrun
    rw [activate_outfit_eq s h0 h1] at hrun
    cases hrun
    exact ⟨pipeline_frame s _ _, pipeline_idx s _ _⟩
  · intro s tIdx s' r ht h0 h1 hrun
    rw [quick_activate_eq s tIdx ht _ (resolveCurrent_inbounds s h0 h1)] at hrun
    cases hrun
    exact ⟨pipeline_frame s _ _, rfl⟩

/-- C10 witness scene: two outfits, selected index `1`. -/
def c10Scene : Scene :=
  ⟨[⟨"A", some 1, [⟨"k", 1, some 7⟩], 0, []⟩, ⟨"B", some 2, [], 0, []⟩],
    1, [⟨some 7⟩], 0, bareObjs, c5Tree⟩

/-- Witness for C10 at `c10Scene`, for both entry points. -/
theorem c10_activation_frame_witness :
    (∃ s' r, activate_outfit_execute c10Scene = some (s', r) ∧
      activationFrame c10Scene s' c10Scene.amarillo_active_outfit_index.toNat) ∧
    (∃ s' r, quick_activate_execute c10Scene (0 : Nat) = some (s', r) ∧
      activationFrame c10Scene s' c10Scene.amarillo_active_outfit_index.toNat ∧
        s'.amarillo_active_outfit_index = ((0 : Nat) : Int)) := by
  constructor
  · exact ⟨_, _, rfl,
      (c10_activation_frame.1 c10Scene _ _ (by decide) (by decide) rfl).1⟩
  · exact ⟨_, _, rfl,
      (c10_activation_frame.2 c10Scene 0 _ _ (by decide) (by decide) (by decide) rfl).1,
      (c10_activation_frame.2 c10Scene 0 _ _ (by decide) (by decide) (by decide) rfl).2⟩

/-! ### Post-activation visibility -/

/-- An in-range `getD` element is a list member. -/
theorem getD_mem_of_lt {α : Type} (l : List α) (j : Nat) (d : α) (h : j < l.length) :
    l.getD j d ∈ l := by
  rw [List.getD]
  cases hg : l.get? j with
  | none => rw [List.get?_eq_none] at hg; omega
  | some a =>
    have := List.get?_mem hg
    simpa using this

/-- An outfit list containing an outfit bound to `c` satisfies the
hide-all pass's search. -/
theorem any_collection_of_getD (O : List OutfitEntry) (j : Nat) (c : CollId)
    (hj : j < O.length) (hc : (O.getD j default).collection = some c) :
    (O.any fun o => o.collection == some c) = true := by
  rw [List.any_eq_true]
  exact ⟨O.getD j default, getD_mem_of_lt O j default hj, by rw [hc]; simp⟩

/-- A successful quick activation resolved its current outfit. -/
theorem quick_some_resolve (s : Scene) (ti : Int) (s' : Scene) (r : OpResult)
    (hti : ¬ ((s.amarillo_outfits.length : Int) ≤ ti))
    (hrun : quick_activate_execute s ti = some (s', r)) :
    ∃ j?, resolveCurrent s = some j? := by
  cases hres : resolveCurrent s with
  | some j? => exact ⟨j?, rfl⟩
  | none =>
    rw [quick_activate_execute, if_neg hti, hres] at hrun
    cases hrun

/-- C5 (amended to account for snapshot interference): after a quick
activation of a target outfit `T` (in-bounds index, bound to a
resolvable collection `cT`), (i) every other outfit's resolvable bound
collection that differs from `cT` and is not recorded in `T`'s restored
snapshot has exclusion flag `true`; (ii) `T`'s own collection has
exclusion flag `false` provided it is not recorded in `T`'s snapshot;
(iii) every resolvable snapshot entry whose collection is not recorded
again by a later entry holds its recorded value — the restore runs
strictly after the global hide-all pass, so these restored flags are not
overwritten by it. -/
theorem c5_activation_visibility (s : Scene) (tIdx : Nat) (cT : CollId)
    (s' : Scene) (r : OpResult)
    (ht : tIdx < s.amarillo_outfits.length)
    (hcol : (s.amarillo_outfits.getD tIdx default).collection = some cT)
    (hmem : memC cT s.layer_tree = true)
    (hrun : quick_activate_execute s (tIdx : Int) = some (s', r)) :
    r = OpResult.FINISHED ∧
    (∀ j, j < s.amarillo_outfits.length → j ≠ tIdx → ∀ c,
      (s.amarillo_outfits.getD j default).collection = some c →
      memC c s.layer_tree = true →
      c ∉ (s'.amarillo_outfits.getD tIdx default).nested_states.filterMap
        NestedCollectionState.collection →
      c ≠ cT →
      getExcl c s'.layer_tree = some true) ∧
    (cT ∉ (s'.amarillo_outfits.getD tIdx default).nested_states.filterMap
        NestedCollectionState.collection →
      getExcl cT s'.layer_tree = some false) ∧
    (∀ (k : Nat) (st : NestedCollectionState),
      (s'.amarillo_outfits.getD tIdx default).nested_states.get? k = some st →
      ∀ c, st.collection = some c →
      memC c s.layer_tree = true →
      c ∉ ((s'.amarillo_outfits.getD tIdx default).nested_states.drop
        (k + 1)).filterMap NestedCollectionState.collection →
      getExcl c s'.layer_tree = some st.was_excluded) := by
  obtain ⟨j?, hres⟩ := quick_some_resolve s (tIdx : Int) s' r
    (by exact_mod_cast Nat.not_le.mpr ht) hrun
  rw [quick_activate_eq s tIdx ht j? hres] at hrun
  cases hrun
  have hs2out : (activate_hide_all (activate_step1 s j?)).amarillo_outfits =
      (activate_step1 s j?).amarillo_outfits := (hide_all_fields _).1
  have hs2tree : (activate_hide_all (activate_step1 s j?)).layer_tree =
      hideAll (activate_step1 s j?).amarillo_outfits s.layer_tree := by
    rw [(hide_all_fields _).2.2.2.2.2, step1_tree]
  have hcol2 : ((activate_hide_all (activate_step1 s j?)).amarillo_outfits.getD
      tIdx default).collection = some cT := by
    rw [hs2out, step1_collection]; exact hcol
  have hmem2 : memC cT (activate_hide_all (activate_step1 s j?)).layer_tree = true := by
    rw [hs2tree, memC_hideAll]; exact hmem
  have hshow := show_target_some _ tIdx cT hcol2 hmem2
  have htree : (activation_pipeline s j? tIdx).layer_tree =
      restoreLoop ((activate_step1 s j?).amarillo_outfits.getD tIdx
          default).nested_states
        (setExcl cT false
          (hideAll (activate_step1 s j?).amarillo_outfits s.layer_tree)) := by
    unfold activation_pipeline
    rw [(apply_keys_fields _ _).2.2.2.2.1, hshow]
    simp only
    rw [restore_nested_states_some _ _ cT hcol2, hs2out, hs2tree]
  have hout : (activation_pipeline s j? tIdx).amarillo_outfits =
      (activate_step1 s j?).amarillo_outfits := pipeline_outfits s j? tIdx
  have hO1len : (activate_step1 s j?).amarillo_outfits.length =
      s.amarillo_outfits.length := step1_outfits_length s j?
  refine ⟨rfl, ?_, ?_, ?_⟩
  · intro j hj hjt c hjc hcm hnotrec hne
    rw [hout] at hnotrec
    have hmem3 : memC c (setExcl cT false
        (hideAll (activate_step1 s j?).amarillo_outfits s.layer_tree)) = true := by
      rw [memC_setExcl, memC_hideAll]; exact hcm
    show getExcl c (activation_pipeline s j? tIdx).layer_tree = some true
    rw [htree, getExcl_restoreLoop_not_mem _ _ _ hnotrec,
      getExcl_setExcl_ne cT c false hne, getExcl_hideAll]
    have hany : ((activate_step1 s j?).amarillo_outfits.any
        fun o => o.collection == some c) = true := by
      refine any_collection_of_getD _ j c (by omega) ?_
      rw [step1_collection]; exact hjc
    rw [hany, hcm]
    rfl
  · intro hnotrec
    rw [hout] at hnotrec
    show getExcl cT (activation_pipeline s j? tIdx).layer_tree = some false
    rw [htree, getExcl_restoreLoop_not_mem _ _ _ hnotrec]
    exact getExcl_setExcl_same cT false _ (by rw [memC_hideAll]; exact hmem)
  · intro k st hk c hc hcm hlater
    rw [hout] at hk hlater
    show getExcl c (activation_pipeline s j? tIdx).layer_tree = some st.was_excluded
    rw [htree]
    exact getExcl_restoreLoop_last c _ _ k st hk hc hlater
      (by rw [memC_setExcl, memC_hideAll]; exact hcm)

/-- C5 witness tree: root `0`, outfit collections `1` (with descendant
`2`) and `3`. -/
def c5wTree : CTree := .node 0 false [.node 1 false [.node 2 true []], .node 3 false []]

/-- C5 witness scene: target outfit `T` (index `0`) bound to collection
`1` with snapshot entry `(2, true)`; current outfit `B` (index `1`)
bound to collection `3`. -/
def c5wScene : Scene :=
  ⟨[⟨"T", some 1, [], 0, [⟨some 2, true⟩]⟩, ⟨"B", some 3, [], 0, []⟩],
    1, [], 0, bareObjs, c5wTree⟩

/-- Witness for C5's amended theorem at `c5wScene`, target index `0`. -/
theorem c5_activation_visibility_witness :
    ∃ s' r, quick_activate_execute c5wScene ((0 : Nat) : Int) = some (s', r) ∧
      (r = OpResult.FINISHED ∧
      (∀ j, j < c5wScene.amarillo_outfits.length → j ≠ 0 → ∀ c,
        (c5wScene.amarillo_outfits.getD j default).collection = some c →
        memC c c5wScene.layer_tree = true →
        c ∉ (s'.amarillo_outfits.getD 0 default).nested_states.filterMap
          NestedCollectionState.collection →
        c ≠ 1 →
        getExcl c s'.layer_tree = some true) ∧
      (1 ∉ (s'.amarillo_outfits.getD 0 default).nested_states.filterMap
          NestedCollectionState.collection →
        getExcl 1 s'.layer_tree = some false) ∧
      (∀ (k : Nat) (st : NestedCollectionState),
        (s'.amarillo_outfits.getD 0 default).nested_states.get? k = some st →
        ∀ c, st.collection = some c →
        memC c c5wScene.layer_tree = true →
        c ∉ ((s'.amarillo_outfits.getD 0 default).nested_states.drop
          (k + 1)).filterMap NestedCollectionState.collection →
        getExcl c s'.layer_tree = some st.was_excluded)) :=
  ⟨_, _, rfl,
    c5_activation_visibility c5wScene 0 1 _ _ (by decide) (by decide) (by decide) rfl⟩

/-! ### Helpers for switch round-trips -/

/-- A located subtree's root is a tree member. -/
theorem memC_of_subtreeOf (c : CollId) (t st : CTree)
    (h : subtreeOf c t = some st) : memC c t = true := by
  apply memC_of_memC_subtreeOf c c t st h
  rw [memC_eq_mem_allIds, allIds, rootId_subtreeOf c t st h]
  exact List.mem_cons_self _ _

/-- Show-target preserves tree membership. -/
theorem memC_show_target (s : Scene) (tIdx : Nat) (x : CollId) :
    memC x (activate_show_target s tIdx).layer_tree = memC x s.layer_tree := by
  cases hc : (s.amarillo_outfits.getD tIdx default).collection with
  | none => rw [show_target_none s tIdx hc]
  | some c =>
    cases hm : memC c s.layer_tree with
    | false => rw [show_target_notmem s tIdx c hc hm]
    | true =>
      rw [show_target_some s tIdx c hc hm]
      simp only
      rw [restore_nested_states_some _ _ c hc, memC_restoreLoop, memC_setExcl]

/-- The activation pipeline preserves tree membership. -/
theorem memC_pipeline (s : Scene) (j? : Option Nat) (tIdx : Nat) (x : CollId) :
    memC x (activation_pipeline s j? tIdx).layer_tree = memC x s.layer_tree := by
  unfold activation_pipeline
  rw [(apply_keys_fields _ _).2.2.2.2.1, memC_show_target,
    (hide_all_fields _).2.2.2.2.2, memC_hideAll, step1_tree]

/-- The activation pipeline's object update: reset the current outfit's
overrides, then apply the target's. -/
theorem pipeline_objs (s : Scene) (j? : Option Nat) (tIdx : Nat) :
    (activation_pipeline s j? tIdx).objs =
      apply_outfit_shape_keys (activate_step1 s j?).objs
        ((activate_step1 s j?).amarillo_outfits.getD tIdx default) := by
  unfold activation_pipeline
  rw [(apply_keys_fields _ _).2.2.2.2.2, (show_target_fields _ _).2.2.2.2,
    (hide_all_fields _).2.2.2.2.1, (show_target_fields _ _).1, (hide_all_fields _).1]

/-- The override fold preserves weight presence. -/
theorem isSome_readWeight_applyFold (vf : ShapeKeyEntry → ℚ)
    (sks : List ShapeKeyEntry) (objs : ObjId → Obj) (m : ObjId) (n : String) :
    (readWeight (applyFold vf objs sks) m n).isSome = (readWeight objs m n).isSome := by
  rw [readWeight_applyFold]
  cases (sks.filter fun sk => sk.model == some m && sk.name == n).getLast? with
  | none => rfl
  | some sk => cases readWeight objs m n <;> rfl

/-- In an override list with pairwise-distinct `(model, name)` pairs,
the entries matching a member's pair are exactly that member. -/
theorem filter_modelname_nodup (l : List ShapeKeyEntry) (sk : ShapeKeyEntry)
    (m : ObjId) (hm : sk.model = some m)
    (hnd : (l.map (fun e => (e.model, e.name))).Nodup) (hmem : sk ∈ l) :
    l.filter (fun e => e.model == some m && e.name == sk.name) = [sk] := by
  induction l with
  | nil => simp at hmem
  | cons a l' ih =>
    rw [List.map_cons, List.nodup_cons] at hnd
    rcases List.mem_cons.mp hmem with h | h
    · subst h
      rw [List.filter_cons, if_pos (by simp [hm])]
      have hnil : l'.filter (fun e => e.model == some m && e.name == sk.name) = [] := by
        rw [List.filter_eq_nil]
        intro e he hpe
        simp only [Bool.and_eq_true, beq_iff_eq] at hpe
        exact hnd.1 (List.mem_map.mpr ⟨e, he, by rw [hpe.1, hpe.2, hm]⟩)
      rw [hnil]
    · have hpa : (a.model == some m && a.name == sk.name) = false := by
        cases hb : (a.model == some m && a.name == sk.name) with
        | false => rfl
        | true =>
          simp only [Bool.and_eq_true, beq_iff_eq] at hb
          exact absurd (List.mem_map.mpr ⟨sk, h, by rw [hb.1, hb.2, hm]⟩) hnd.1
      rw [List.filter_cons, if_neg (by simp [hpa]), ih hnd.2 h]

/-- C6: switching the active outfit `A → B → A` with no external
mutation in between restores the exclusion flag of every resolvable
descendant of `A`'s bound collection to its value before leaving `A`,
and writes each of `A`'s resolvable shape-key override weights back to
its stored override value (the override keys being pairwise distinct,
so that "its stored value" is well defined). -/
theorem c6_switch_roundtrip (s : Scene) (iA iB : Nat) (cA : CollId) (stA : CTree)
    (s1 s2 : Scene) (r1 r2 : OpResult)
    (hA : iA < s.amarillo_outfits.length)
    (hB : iB < s.amarillo_outfits.length)
    (hAB : iA ≠ iB)
    (hidx : s.amarillo_active_outfit_index = (iA : Int))
    (hcolA : (s.amarillo_outfits.getD iA default).collection = some cA)
    (hsub : subtreeOf cA s.layer_tree = some stA)
    (hnodup : ((s.amarillo_outfits.getD iA default).shape_keys.map
      (fun sk => (sk.model, sk.name))).Nodup)
    (hrun1 : quick_activate_execute s (iB : Int) = some (s1, r1))
    (hrun2 : quick_activate_execute s1 (iA : Int) = some (s2, r2)) :
    (∀ d ∈ descOf stA, getExcl d s2.layer_tree = getExcl d s.layer_tree) ∧
    (∀ sk ∈ (s.amarillo_outfits.getD iA default).shape_keys, ∀ m,
      sk.model = some m → (readWeight s.objs m sk.name).isSome = true →
      readWeight s2.objs m sk.name = some sk.value) := by
  have h0 : 0 ≤ s.amarillo_active_outfit_index := by
    rw [hidx]; exact Int.natCast_nonneg iA
  have h1 : s.amarillo_active_outfit_index < (s.amarillo_outfits.length : Int) := by
    rw [hidx]; exact_mod_cast hA
  have hres1 : resolveCurrent s = some (some iA) := by
    rw [resolveCurrent_inbounds s h0 h1, hidx, Int.toNat_natCast]
  rw [quick_activate_eq s iB hB _ hres1] at hrun1
  cases hrun1
  set q1 : Scene := { activation_pipeline s (some iA) iB with
    amarillo_active_outfit_index := ((iB : Nat) : Int) } with hq1
  -- facts about the state after leaving A
  have hq1out : q1.amarillo_outfits =
      s.amarillo_outfits.set iA
        (store_nested_states s.layer_tree (s.amarillo_outfits.getD iA default)) := by
    have h := pipeline_outfits s (some iA) iB
    rw [step1_outfits_some] at h
    exact h
  have hq1len : q1.amarillo_outfits.length = s.amarillo_outfits.length := by
    rw [hq1out, List.length_set]
  have hq1idx : q1.amarillo_active_outfit_index = ((iB : Nat) : Int) := rfl
  have hq1getA : q1.amarillo_outfits.getD iA default =
      store_nested_states s.layer_tree (s.amarillo_outfits.getD iA default) := by
    rw [hq1out]
    exact getD_set_self _ _ _ _ hA
  have hq1memC : ∀ x, memC x q1.layer_tree = memC x s.layer_tree := fun x =>
    memC_pipeline s (some iA) iB x
  have hq1iso : ∀ mm nn,
      (readWeight q1.objs mm nn).isSome = (readWeight s.objs mm nn).isSome := by
    intro mm nn
    have hpo : q1.objs = apply_outfit_shape_keys (activate_step1 s (some iA)).objs
        ((activate_step1 s (some iA)).amarillo_outfits.getD iB default) :=
      pipeline_objs s (some iA) iB
    rw [hpo, apply_eq_applyFold, isSome_readWeight_applyFold, step1_objs_some,
      reset_eq_applyFold, isSome_readWeight_applyFold]
  -- run 2
  have h0' : 0 ≤ q1.amarillo_active_outfit_index := by
    rw [hq1idx]; exact Int.natCast_nonneg iB
  have h1' : q1.amarillo_active_outfit_index < (q1.amarillo_outfits.length : Int) := by
    rw [hq1idx, hq1len]; exact_mod_cast hB
  have hres2 : resolveCurrent q1 = some (some iB) := by
    rw [resolveCurrent_inbounds q1 h0' h1', hq1idx, Int.toNat_natCast]
  have hAlt : iA < q1.amarillo_outfits.length := by rw [hq1len]; exact hA
  rw [quick_activate_eq q1 iA hAlt _ hres2] at hrun2
  cases hrun2
  -- the target of run 2 is A with the fresh snapshot
  have hgetA2 : (activate_step1 q1 (some iB)).amarillo_outfits.getD iA default =
      store_nested_states s.layer_tree (s.amarillo_outfits.getD iA default) := by
    rw [step1_outfits_some, getD_set_ne _ _ _ _ _ hAB]
    exact hq1getA
  have hcolA2 : ((activate_step1 q1 (some iB)).amarillo_outfits.getD iA
      default).collection = some cA := by
    rw [hgetA2, store_nested_states_collection]
    exact hcolA
  have hmemA1 : memC cA q1.layer_tree = true := by
    rw [hq1memC]
    exact memC_of_subtreeOf cA s.layer_tree stA hsub
  have hs2out : (activate_hide_all (activate_step1 q1 (some iB))).amarillo_outfits =
      (activate_step1 q1 (some iB)).amarillo_outfits := (hide_all_fields _).1
  have hs2tree : (activate_hide_all (activate_step1 q1 (some iB))).layer_tree =
      hideAll (activate_step1 q1 (some iB)).amarillo_outfits q1.layer_tree := by
    rw [(hide_all_fields _).2.2.2.2.2, step1_tree]
  have hcol2 : ((activate_hide_all (activate_step1 q1 (some iB))).amarillo_outfits.getD
      iA default).collection = some cA := by
    rw [hs2out]; exact hcolA2
  have hmem2 : memC cA (activate_hide_all (activate_step1 q1 (some iB))).layer_tree =
      true := by
    rw [hs2tree, memC_hideAll]; exact hmemA1
  have hshow := show_target_some _ iA cA hcol2 hmem2
  have hsnap : (store_nested_states s.layer_tree
      (s.amarillo_outfits.getD iA default)).nested_states =
      storeLoop s.layer_tree (descOf stA) := by
    rw [store_nested_states_spec s.layer_tree _ cA hcolA, nestedCollections, hsub]
  have htree2 : (activation_pipeline q1 (some iB) iA).layer_tree =
      restoreLoop (storeLoop s.layer_tree (descOf stA))
        (setExcl cA false
          (hideAll (activate_step1 q1 (some iB)).amarillo_outfits q1.layer_tree)) := by
    unfold activation_pipeline
    rw [(apply_keys_fields _ _).2.2.2.2.1, hshow]
    simp only
    rw [restore_nested_states_some _ _ cA hcol2, hs2out, hs2tree, hgetA2, hsnap]
  constructor
  · -- visibility round-trip for every descendant of A's collection
    intro d hd
    have hmemd : memC d s.layer_tree = true :=
      memC_of_mem_desc_subtreeOf cA d s.layer_tree stA hsub hd
    obtain ⟨b, hb⟩ : ∃ b, getExcl d s.layer_tree = some b := by
      have hiso := getExcl_isSome_eq_memC d s.layer_tree
      rw [hmemd] at hiso
      cases hg : getExcl d s.layer_tree with
      | none => rw [hg] at hiso; simp at hiso
      | some b => exact ⟨b, rfl⟩
    show getExcl d (activation_pipeline q1 (some iB) iA).layer_tree =
      getExcl d s.layer_tree
    rw [htree2, hb]
    refine getExcl_restoreLoop_all_same d b _ _ ?_ ?_ ?_
    · intro st hst hc
      have hval := storeLoop_entry_val s.layer_tree (descOf stA) d st hst hc
      rw [hb] at hval
      exact (Option.some.inj hval).symm
    · exact storeLoop_exists_entry s.layer_tree (descOf stA) d hd hmemd
    · rw [memC_setExcl, memC_hideAll, hq1memC]
      exact hmemd
  · -- weight round-trip for A's overrides
    intro sk hsk m hm hres
    have hobjs2 : (activation_pipeline q1 (some iB) iA).objs =
        applyFold ShapeKeyEntry.value (activate_step1 q1 (some iB)).objs
          (s.amarillo_outfits.getD iA default).shape_keys := by
      rw [pipeline_objs, apply_eq_applyFold, hgetA2, store_nested_states_shape_keys]
    have hfilter : ((s.amarillo_outfits.getD iA default).shape_keys.filter
        (fun e => e.model == some m && e.name == sk.name)) = [sk] :=
      filter_modelname_nodup _ sk m hm hnodup hsk
    have hisoin : (readWeight (activate_step1 q1 (some iB)).objs m sk.name).isSome =
        true := by
      rw [step1_objs_some, reset_eq_applyFold, isSome_readWeight_applyFold, hq1iso]
      exact hres
    show readWeight (activation_pipeline q1 (some iB) iA).objs m sk.name = some sk.value
    rw [hobjs2, readWeight_applyFold, hfilter]
    cases hri : readWeight (activate_step1 q1 (some iB)).objs m sk.name with
    | none => rw [hri] at hisoin; simp at hisoin
    | some w => simp

/-- C6 witness objects: object `7` carries a `Smile` key. -/
def c6wObjs : ObjId → Obj :=
  fun i => if i = 7 then ⟨some [⟨"Smile", 0⟩], 0⟩ else ⟨none, 0⟩

/-- C6 witness scene: outfit `A` (index `0`, collection `1`, one
override of object `7`'s `Smile` key) is active; outfit `B` (index `1`)
is bound to collection `3`. -/
def c6wScene : Scene :=
  ⟨[⟨"A", some 1, [⟨"Smile", 1, some 7⟩], 0, []⟩, ⟨"B", some 3, [], 0, []⟩],
    0, [⟨some 7⟩], 0, c6wObjs, c5wTree⟩

/-- The subtree of `A`'s bound collection in the C6 witness scene. -/
def c6wSub : CTree := .node 1 false [.node 2 true []]

/-- Witness for C6 at `c6wScene`: switch `A → B → A`. -/
theorem c6_switch_roundtrip_witness :
    ∃ s1 r1 s2 r2,
      quick_activate_execute c6wScene ((1 : Nat) : Int) = some (s1, r1) ∧
      quick_activate_execute s1 ((0 : Nat) : Int) = some (s2, r2) ∧
      (∀ d ∈ descOf c6wSub, getExcl d s2.layer_tree = getExcl d c6wScene.layer_tree) ∧
      (∀ sk ∈ (c6wScene.amarillo_outfits.getD 0 default).shape_keys, ∀ m,
        sk.model = some m → (readWeight c6wScene.objs m sk.name).isSome = true →
        readWeight s2.objs m sk.name = some sk.value) := by
  refine ⟨_, _, _, _, rfl, rfl, ?_, ?_⟩
  · exact (c6_switch_roundtrip c6wScene 0 1 1 c6wSub _ _ _ _ (by decide) (by decide)
      (by decide) (by decide) (by decide) rfl (by decide) rfl rfl).1
  · exact (c6_switch_roundtrip c6wScene 0 1 1 c6wSub _ _ _ _ (by decide) (by decide)
      (by decide) (by decide) (by decide) rfl (by decide) rfl rfl).2

/-! ### Helpers for activation idempotence -/

/-- `getD` at an in-range position is `get`. -/
theorem getD_eq_get {α : Type} (l : List α) (j : Nat) (d : α) (h : j < l.length) :
    l.getD j d = l.get ⟨j, h⟩ := by
  rw [List.getD, List.get?_eq_get h]
  rfl

/-- The hide-all search succeeds exactly for collections bound by some
outfit position. -/
theorem any_collection_eq_true_iff (O : List OutfitEntry) (x : CollId) :
    (O.any fun o => o.collection == some x) = true ↔
      ∃ j, ∃ _ : j < O.length, (O.getD j default).collection = some x := by
  rw [List.any_eq_true]
  constructor
  · rintro ⟨o, ho, px⟩
    obtain ⟨⟨j, hj⟩, hoj⟩ := List.mem_iff_get.mp ho
    refine ⟨j, hj, ?_⟩
    rw [getD_eq_get _ _ _ hj, hoj]
    simpa using px
  · rintro ⟨j, hj, hx⟩
    exact ⟨O.getD j default, getD_mem_of_lt _ _ _ hj, by rw [hx]; simp⟩

/-- Outfit lists with pointwise-equal collection bindings drive the
hide-all pass identically. -/
theorem any_collection_congr (O O' : List OutfitEntry) (x : CollId)
    (hlen : O'.length = O.length)
    (hpt : ∀ j, j < O.length →
      (O'.getD j default).collection = (O.getD j default).collection) :
    (O'.any fun o => o.collection == some x) = (O.any fun o => o.collection == some x) := by
  cases hO : (O.any fun o => o.collection == some x) with
  | true =>
    obtain ⟨j, hj, hx⟩ := (any_collection_eq_true_iff O x).mp hO
    exact (any_collection_eq_true_iff O' x).mpr
      ⟨j, by omega, by rw [hpt j hj]; exact hx⟩
  | false =>
    cases hO' : (O'.any fun o => o.collection == some x) with
    | false => rfl
    | true =>
      obtain ⟨j, hj, hx⟩ := (any_collection_eq_true_iff O' x).mp hO'
      have hj2 : j < O.length := by omega
      have hcontra : (O.any fun o => o.collection == some x) = true :=
        (any_collection_eq_true_iff O x).mpr
          ⟨j, hj2, by rw [← hpt j hj2]; exact hx⟩
      rw [hO] at hcontra
      cases hcontra

/-- Show-target preserves the nested-collection listings. -/
theorem nested_show_target (s : Scene) (tIdx : Nat) (x : CollId) :
    nestedCollections (activate_show_target s tIdx).layer_tree x =
      nestedCollections s.layer_tree x := by
  cases hc : (s.amarillo_outfits.getD tIdx default).collection with
  | none => rw [show_target_none s tIdx hc]
  | some c =>
    cases hm : memC c s.layer_tree with
    | false => rw [show_target_notmem s tIdx c hc hm]
    | true =>
      rw [show_target_some s tIdx c hc hm]
      simp only
      rw [restore_nested_states_some _ _ c hc, nestedCollections_restoreLoop,
        nestedCollections_setExcl]

/-- The activation pipeline preserves the nested-collection listings. -/
theorem nested_pipeline (s : Scene) (j? : Option Nat) (tIdx : Nat) (x : CollId) :
    nestedCollections (activation_pipeline s j? tIdx).layer_tree x =
      nestedCollections s.layer_tree x := by
  unfold activation_pipeline
  rw [(apply_keys_fields _ _).2.2.2.2.1, nested_show_target,
    (hide_all_fields _).2.2.2.2.2, nestedCollections_hideAll, step1_tree]

/-- Re-applying the same override list — apply, reset, apply — settles
on the same weights as a single apply. -/
theorem applyFold_reset_apply (M : ObjId → Obj) (Ksks : List ShapeKeyEntry)
    (m : ObjId) (n : String) :
    readWeight (applyFold ShapeKeyEntry.value
        (applyFold (fun _ => 0) (applyFold ShapeKeyEntry.value M Ksks) Ksks) Ksks) m n =
      readWeight (applyFold ShapeKeyEntry.value M Ksks) m n := by
  rw [readWeight_applyFold]
  cases hF : (Ksks.filter fun sk => sk.model == some m && sk.name == n).getLast? with
  | none =>
    rw [readWeight_applyFold (fun _ => 0), hF]
  | some sk =>
    have hW1 : readWeight (applyFold ShapeKeyEntry.value M Ksks) m n =
        (readWeight M m n).map (fun _ => sk.value) := by
      rw [readWeight_applyFold, hF]
    have hiso : (readWeight (applyFold (fun _ => 0)
        (applyFold ShapeKeyEntry.value M Ksks) Ksks) m n).isSome =
        (readWeight M m n).isSome := by
      rw [isSome_readWeight_applyFold, hW1]
      cases readWeight M m n <;> rfl
    rw [hW1]
    exact option_map_const _ _ _ hiso

/-- C8 (amended to require a coherent snapshot): for a target outfit
`T` (in-bounds, bound to a resolvable collection `cT`, with unique
collection identity in the view layer) whose stored snapshot references
only descendants of `cT`, activating `T` and then activating `T` again
yields the same exclusion flag on every collection and the same live
shape-key weight on every model and key as after the first
activation. -/
theorem c8_activation_idempotent (s : Scene) (tIdx : Nat) (cT : CollId) (stT : CTree)
    (s1 s2 : Scene) (r1 r2 : OpResult)
    (ht : tIdx < s.amarillo_outfits.length)
    (hcolT : (s.amarillo_outfits.getD tIdx default).collection = some cT)
    (hsubT : subtreeOf cT s.layer_tree = some stT)
    (hnodupT : (allIds s.layer_tree).Nodup)
    (hstale : ∀ st ∈ (s.amarillo_outfits.getD tIdx default).nested_states,
      ∀ c, st.collection = some c → c ∈ descOf stT)
    (hrun1 : quick_activate_execute s (tIdx : Int) = some (s1, r1))
    (hrun2 : quick_activate_execute s1 (tIdx : Int) = some (s2, r2)) :
    (∀ x, getExcl x s2.layer_tree = getExcl x s1.layer_tree) ∧
    (∀ m n, readWeight s2.objs m n = readWeight s1.objs m n) := by
  have hmemT : memC cT s.layer_tree = true := memC_of_subtreeOf cT s.layer_tree stT hsubT
  obtain ⟨j?, hres1⟩ := quick_some_resolve s (tIdx : Int) s1 r1
    (by exact_mod_cast Nat.not_le.mpr ht) hrun1
  rw [quick_activate_eq s tIdx ht j? hres1] at hrun1
  cases hrun1
  set q1 : Scene := { activation_pipeline s j? tIdx with
    amarillo_active_outfit_index := ((tIdx : Nat) : Int) } with hq1
  have hq1out : q1.amarillo_outfits = (activate_step1 s j?).amarillo_outfits :=
    pipeline_outfits s j? tIdx
  have hq1len : q1.amarillo_outfits.length = s.amarillo_outfits.length := by
    rw [hq1out, step1_outfits_length]
  have hq1memC : ∀ x, memC x q1.layer_tree = memC x s.layer_tree := fun x =>
    memC_pipeline s j? tIdx x
  have hq1nested : ∀ x, nestedCollections q1.layer_tree x =
      nestedCollections s.layer_tree x := fun x => nested_pipeline s j? tIdx x
  have hq1colpt : ∀ j, (q1.amarillo_outfits.getD j default).collection =
      (s.amarillo_outfits.getD j default).collection := by
    intro j
    rw [hq1out]
    exact step1_collection s j? j
  have hcolT1 : (q1.amarillo_outfits.getD tIdx default).collection = some cT := by
    rw [hq1colpt]; exact hcolT
  have hE1sub : ∀ c, c ∈ ((activate_step1 s j?).amarillo_outfits.getD tIdx
      default).nested_states.filterMap NestedCollectionState.collection →
      c ∈ descOf stT := by
    intro c hc
    obtain ⟨st, hst, hstc⟩ := List.mem_filterMap.mp hc
    cases j? with
    | none => exact hstale st hst c hstc
    | some j =>
      by_cases hj : j = tIdx
      · subst hj
        rw [step1_outfits_some, getD_set_self _ _ _ _ ht,
          store_nested_states_spec s.layer_tree _ cT hcolT, nestedCollections,
          hsubT] at hst
        exact mem_storeLoop_ids s.layer_tree (descOf stT) c
          (List.mem_filterMap.mpr ⟨st, hst, hstc⟩)
      · rw [step1_outfits_some, getD_set_ne _ _ _ _ _ (fun hh => hj hh.symm)] at hst
        exact hstale st hst c hstc
  have hO1col : ((activate_step1 s j?).amarillo_outfits.getD tIdx default).collection
      = some cT := by rw [step1_collection]; exact hcolT
  have hs2out1 : (activate_hide_all (activate_step1 s j?)).amarillo_outfits =
      (activate_step1 s j?).amarillo_outfits := (hide_all_fields _).1
  have hs2tree1 : (activate_hide_all (activate_step1 s j?)).layer_tree =
      hideAll (activate_step1 s j?).amarillo_outfits s.layer_tree := by
    rw [(hide_all_fields _).2.2.2.2.2, step1_tree]
  have hcol21 : ((activate_hide_all (activate_step1 s j?)).amarillo_outfits.getD tIdx
      default).collection = some cT := by rw [hs2out1]; exact hO1col
  have hmem21 : memC cT (activate_hide_all (activate_step1 s j?)).layer_tree = true := by
    rw [hs2tree1, memC_hideAll]; exact hmemT
  have htree1 : q1.layer_tree =
      restoreLoop ((activate_step1 s j?).amarillo_outfits.getD tIdx
          default).nested_states
        (setExcl cT false
          (hideAll (activate_step1 s j?).amarillo_outfits s.layer_tree)) := by
    show (activation_pipeline s j? tIdx).layer_tree = _
    unfold activation_pipeline
    rw [(apply_keys_fields _ _).2.2.2.2.1, show_target_some _ tIdx cT hcol21 hmem21]
    simp only
    rw [restore_nested_states_some _ _ cT hcol21, hs2out1, hs2tree1]
  have hidx1 : q1.amarillo_active_outfit_index = ((tIdx : Nat) : Int) := rfl
  have h0' : 0 ≤ q1.amarillo_active_outfit_index := by
    rw [hidx1]; exact Int.natCast_nonneg tIdx
  have h1' : q1.amarillo_active_outfit_index < (q1.amarillo_outfits.length : Int) := by
    rw [hidx1, hq1len]; exact_mod_cast ht
  have hres2 : resolveCurrent q1 = some (some tIdx) := by
    rw [resolveCurrent_inbounds q1 h0' h1', hidx1, Int.toNat_natCast]
  have htlt1 : tIdx < q1.amarillo_outfits.length := by rw [hq1len]; exact ht
  rw [quick_activate_eq q1 tIdx htlt1 _ hres2] at hrun2
  cases hrun2
  have hD1 : nestedCollections q1.layer_tree cT = descOf stT := by
    rw [hq1nested, nestedCollections, hsubT]
  have hgetT2 : (activate_step1 q1 (some tIdx)).amarillo_outfits.getD tIdx default =
      store_nested_states q1.layer_tree (q1.amarillo_outfits.getD tIdx default) := by
    rw [step1_outfits_some]
    exact getD_set_self _ _ _ _ htlt1
  have hE2 : ((activate_step1 q1 (some tIdx)).amarillo_outfits.getD tIdx
      default).nested_states = storeLoop q1.layer_tree (descOf stT) := by
    rw [hgetT2, store_nested_states_spec q1.layer_tree _ cT hcolT1, hD1]
  have hcolT2 : ((activate_step1 q1 (some tIdx)).amarillo_outfits.getD tIdx
      default).collection = some cT := by
    rw [step1_collection]; exact hcolT1
  have hs2out2 : (activate_hide_all (activate_step1 q1 (some tIdx))).amarillo_outfits =
      (activate_step1 q1 (some tIdx)).amarillo_outfits := (hide_all_fields _).1
  have hs2tree2 : (activate_hide_all (activate_step1 q1 (some tIdx))).layer_tree =
      hideAll (activate_step1 q1 (some tIdx)).amarillo_outfits q1.layer_tree := by
    rw [(hide_all_fields _).2.2.2.2.2, step1_tree]
  have hmemT1 : memC cT q1.layer_tree = true := by rw [hq1memC]; exact hmemT
  have hcol22 : ((activate_hide_all
      (activate_step1 q1 (some tIdx))).amarillo_outfits.getD
      tIdx default).collection = some cT := by rw [hs2out2]; exact hcolT2
  have hmem22 : memC cT (activate_hide_all (activate_step1 q1 (some tIdx))).layer_tree
      = true := by rw [hs2tree2, memC_hideAll]; exact hmemT1
  have htree2 : (activation_pipeline q1 (some tIdx) tIdx).layer_tree =
      restoreLoop (storeLoop q1.layer_tree (descOf stT))
        (setExcl cT false
          (hideAll (activate_step1 q1 (some tIdx)).amarillo_outfits
            q1.layer_tree)) := by
    unfold activation_pipeline
    rw [(apply_keys_fields _ _).2.2.2.2.1, show_target_some _ tIdx cT hcol22 hmem22]
    simp only
    rw [restore_nested_states_some _ _ cT hcol22, hs2out2, hs2tree2, hE2]
  have hanyO1 : ∀ x, ((activate_step1 s j?).amarillo_outfits.any
      fun o => o.collection == some x) =
      (s.amarillo_outfits.any fun o => o.collection == some x) := by
    intro x
    exact any_collection_congr _ _ x (step1_outfits_length s j?)
      (fun j _ => step1_collection s j? j)
  have hanyO2 : ∀ x, ((activate_step1 q1 (some tIdx)).amarillo_outfits.any
      fun o => o.collection == some x) =
      (s.amarillo_outfits.any fun o => o.collection == some x) := by
    intro x
    have h2 : ((activate_step1 q1 (some tIdx)).amarillo_outfits.any
        fun o => o.collection == some x) =
        (q1.amarillo_outfits.any fun o => o.collection == some x) :=
      any_collection_congr _ _ x (step1_outfits_length q1 (some tIdx))
        (fun j _ => step1_collection q1 (some tIdx) j)
    have h3 : (q1.amarillo_outfits.any fun o => o.collection == some x) =
        (s.amarillo_outfits.any fun o => o.collection == some x) := by
      rw [hq1out]; exact hanyO1 x
    rw [h2, h3]
  have hnodupSt : (allIds stT).Nodup :=
    List.Nodup.sublist (allIds_subtreeOf_sublist cT s.layer_tree stT hsubT) hnodupT
  have hcT_notD : cT ∉ descOf stT := by
    have h4 : allIds stT = cT :: descOf stT := by
      rw [allIds, rootId_subtreeOf cT s.layer_tree stT hsubT]
    rw [h4] at hnodupSt
    exact (List.nodup_cons.mp hnodupSt).1
  constructor
  · intro x
    show getExcl x (activation_pipeline q1 (some tIdx) tIdx).layer_tree =
      getExcl x q1.layer_tree
    rw [htree2]
    by_cases hxD : x ∈ descOf stT
    · have hmemx : memC x s.layer_tree = true :=
        memC_of_mem_desc_subtreeOf cT x s.layer_tree stT hsubT hxD
      have hmemx1 : memC x q1.layer_tree = true := by rw [hq1memC]; exact hmemx
      obtain ⟨b, hb⟩ : ∃ b, getExcl x q1.layer_tree = some b := by
        have hiso := getExcl_isSome_eq_memC x q1.layer_tree
        rw [hmemx1] at hiso
        cases hg : getExcl x q1.layer_tree with
        | none => rw [hg] at hiso; simp at hiso
        | some b => exact ⟨b, rfl⟩
      rw [hb]
      refine getExcl_restoreLoop_all_same x b _ _ ?_ ?_ ?_
      · intro st hst hc
        have hval := storeLoop_entry_val q1.layer_tree (descOf stT) x st hst hc
        rw [hb] at hval
        exact (Option.some.inj hval).symm
      · exact storeLoop_exists_entry q1.layer_tree (descOf stT) x hxD hmemx1
      · rw [memC_setExcl, memC_hideAll]; exact hmemx1
    · have hxE2 : x ∉ (storeLoop q1.layer_tree (descOf stT)).filterMap
          NestedCollectionState.collection := fun hmem' =>
        hxD (mem_storeLoop_ids q1.layer_tree (descOf stT) x hmem')
      rw [getExcl_restoreLoop_not_mem _ _ _ hxE2]
      have hxE1 : x ∉ ((activate_step1 s j?).amarillo_outfits.getD tIdx
          default).nested_states.filterMap NestedCollectionState.collection :=
        fun hmem' => hxD (hE1sub x hmem')
      by_cases hxT : x = cT
      · subst hxT
        rw [getExcl_setExcl_same x false _ (by rw [memC_hideAll]; exact hmemT1)]
        rw [htree1, getExcl_restoreLoop_not_mem _ _ _ hxE1,
          getExcl_setExcl_same x false _ (by rw [memC_hideAll]; exact hmemT)]
      · rw [getExcl_setExcl_ne cT x false hxT, getExcl_hideAll, hanyO2 x, hq1memC x]
        by_cases hcond : ((s.amarillo_outfits.any fun o => o.collection == some x) &&
            memC x s.layer_tree) = true
        · rw [if_pos hcond]
          rw [htree1, getExcl_restoreLoop_not_mem _ _ _ hxE1,
            getExcl_setExcl_ne cT x false hxT, getExcl_hideAll, hanyO1 x,
            if_pos hcond]
        · rw [if_neg hcond]
  · intro m n
    show readWeight (activation_pipeline q1 (some tIdx) tIdx).objs m n =
      readWeight q1.objs m n
    have hKs1 : ((activate_step1 s j?).amarillo_outfits.getD tIdx
        default).shape_keys = (s.amarillo_outfits.getD tIdx default).shape_keys :=
      step1_shape_keys s j? tIdx
    have hT1sks : (q1.amarillo_outfits.getD tIdx default).shape_keys =
        (s.amarillo_outfits.getD tIdx default).shape_keys := by
      rw [hq1out]; exact hKs1
    have hq1objs : q1.objs = applyFold ShapeKeyEntry.value (activate_step1 s j?).objs
        (s.amarillo_outfits.getD tIdx default).shape_keys := by
      have h := pipeline_objs s j? tIdx
      rw [apply_eq_applyFold, hKs1] at h
      exact h
    have hP2objs : (activation_pipeline q1 (some tIdx) tIdx).objs =
        applyFold ShapeKeyEntry.value
          (applyFold (fun _ => 0) q1.objs
            (s.amarillo_outfits.getD tIdx default).shape_keys)
          (s.amarillo_outfits.getD tIdx default).shape_keys := by
      have h := pipeline_objs q1 (some tIdx) tIdx
      rw [apply_eq_applyFold, step1_shape_keys q1 (some tIdx) tIdx, hT1sks,
        step1_objs_some, reset_eq_applyFold, store_nested_states_shape_keys,
        hT1sks] at h
      exact h
    rw [hP2objs, hq1objs, applyFold_reset_apply]

/-- C8 witness scene: outfit `T` (index `0`, collection `1`, one
override, snapshot entry `(2, false)` for its descendant `2`) is
current; outfit `B` (index `1`) is bound to collection `3`. -/
def c8wScene : Scene :=
  ⟨[⟨"T", some 1, [⟨"Smile", 1, some 7⟩], 0, [⟨some 2, false⟩]⟩,
      ⟨"B", some 3, [], 0, []⟩],
    0, [⟨some 7⟩], 0, c6wObjs, c5wTree⟩

/-- Witness for C8's amended theorem at `c8wScene`: activate outfit `0`
twice. -/
theorem c8_activation_idempotent_witness :
    ∃ s1 r1 s2 r2,
      quick_activate_execute c8wScene ((0 : Nat) : Int) = some (s1, r1) ∧
      quick_activate_execute s1 ((0 : Nat) : Int) = some (s2, r2) ∧
      (∀ x, getExcl x s2.layer_tree = getExcl x s1.layer_tree) ∧
      (∀ m n, readWeight s2.objs m n = readWeight s1.objs m n) := by
  have hstale : ∀ st ∈ (c8wScene.amarillo_outfits.getD 0 default).nested_states,
      ∀ c, st.collection = some c → c ∈ descOf c6wSub := by
    intro st hst c hc
    have hst2 : st ∈ [(⟨some 2, false⟩ : NestedCollectionState)] := hst
    rw [List.mem_singleton] at hst2
    subst hst2
    simp only at hc
    cases hc
    decide
  refine ⟨_, _, _, _, rfl, rfl, ?_, ?_⟩
  · exact (c8_activation_idempotent c8wScene 0 1 c6wSub _ _ _ _ (by decide) (by decide)
      rfl (by decide) hstale rfl rfl).1
  · exact (c8_activation_idempotent c8wScene 0 1 c6wSub _ _ _ _ (by decide) (by decide)
      rfl (by decide) hstale rfl rfl).2
